import Mathlib

set_option linter.unusedVariables false

set_option allowUnsafeReducibility true in
attribute [semireducible] Rat.add Rat.mul Rat.sub Rat.inv Rat.ofScientific

/-!
Shallow embedding of `src/SpatialGrid.ts` (class `SpatialGrid`) and proofs
about its operations.

Conventions used by the embedding:

* JavaScript numbers are modelled as rationals (`ℚ`); `Math.floor` / `Math.ceil`
  become `Int.floor` / `Int.ceil`.
* A JavaScript object reference is modelled as a `SpatialGridObject` value
  carrying an extra `id` field, so two objects with identical geometry remain
  distinct and `Set`-deduplication-by-reference becomes deduplication of values.
* Indexing a JavaScript array out of range yields `undefined`, and the
  subsequent `for … of` iteration throws a `TypeError`; this is modelled with
  `Option`: a query returns `none` exactly when the original code would throw.
* A JavaScript `Set` of freshly allocated tile literals (`{x, y}`) never
  deduplicates (distinct references), so such sets are modelled as plain lists;
  a `Set<SpatialGridObject>` is modelled by insertion-ordered deduplication
  (`insertUnique`).
* The `debug` flag and `lastCheckedTiles` trace do not influence any returned
  result and are omitted.
-/

/-- The `SpatialGridObject` interface.  `id` models JavaScript reference
identity; the remaining fields are the interface's fields, with `Option`
for the optional ones. -/
structure SpatialGridObject where
  id : Nat
  x : ℚ
  y : ℚ
  radius : Option ℚ := none
  left : Option ℚ := none
  right : Option ℚ := none
  top : Option ℚ := none
  bottom : Option ℚ := none
  deriving DecidableEq, Repr

/-- The `SpatialGrid` class state: constructor fields, the live `objects`
list, and the private `#grid` bucket table (flattened `xTiles * yTiles`). -/
structure SpatialGrid where
  width : ℚ
  height : ℚ
  tileSize : ℚ
  objects : List SpatialGridObject := []
  grid : List (List SpatialGridObject) := []
  deriving DecidableEq, Repr

/-- `new SpatialGrid({width, height, tileSize})`: `objects` and `#grid`
both start empty. -/
def SpatialGrid.create (width height tileSize : ℚ) : SpatialGrid :=
  { width := width, height := height, tileSize := tileSize }

/-- `add(...objects)`: appends to the live object list; buckets untouched. -/
def SpatialGrid.add (g : SpatialGrid) (objs : List SpatialGridObject) : SpatialGrid :=
  { g with objects := g.objects ++ objs }

/-- `remove(...objects)`: `this.objects.filter(obj => !objects.includes(obj))`. -/
def SpatialGrid.remove (g : SpatialGrid) (objs : List SpatialGridObject) : SpatialGrid :=
  { g with objects := g.objects.filter (fun o => !(objs.contains o)) }

/-- `get xTiles() { return Math.floor(this.width / this.tileSize); }` -/
def SpatialGrid.xTiles (g : SpatialGrid) : ℤ := ⌊g.width / g.tileSize⌋

/-- `get yTiles() { return Math.floor(this.height / this.tileSize); }` -/
def SpatialGrid.yTiles (g : SpatialGrid) : ℤ := ⌊g.height / g.tileSize⌋

/-- The list of integers visited by `for (let v = a; v <= b; v++)`. -/
def intRange (a b : ℤ) : List ℤ :=
  (List.range (b + 1 - a).toNat).map (fun (i : ℕ) => a + (i : ℤ))

/-- `Math.floor((obj.left ?? (obj.x - (obj.radius ?? 0))) / tileSize)` -/
def SpatialGridObject.startX (o : SpatialGridObject) (tileSize : ℚ) : ℤ :=
  ⌊(o.left.getD (o.x - o.radius.getD 0)) / tileSize⌋

/-- `Math.floor((obj.top ?? (obj.y - (obj.radius ?? 0))) / tileSize)` -/
def SpatialGridObject.startY (o : SpatialGridObject) (tileSize : ℚ) : ℤ :=
  ⌊(o.top.getD (o.y - o.radius.getD 0)) / tileSize⌋

/-- `Math.floor((obj.right ?? (obj.x + (obj.radius ?? 0))) / tileSize)` -/
def SpatialGridObject.endX (o : SpatialGridObject) (tileSize : ℚ) : ℤ :=
  ⌊(o.right.getD (o.x + o.radius.getD 0)) / tileSize⌋

/-- `Math.floor((obj.bottom ?? (obj.y + (obj.radius ?? 0))) / tileSize)` -/
def SpatialGridObject.endY (o : SpatialGridObject) (tileSize : ℚ) : ℤ :=
  ⌊(o.bottom.getD (o.y + o.radius.getD 0)) / tileSize⌋

/-- `const tileIndex = y * this.xTiles + x` -/
def tileIndex (xT tx ty : ℤ) : ℤ := ty * xT + tx

/-- The bounds check `x >= 0 && x < this.xTiles && y >= 0 && y < this.yTiles`
shared by `update` and all queries. -/
def inTileBounds (xT yT tx ty : ℤ) : Prop :=
  0 ≤ tx ∧ tx < xT ∧ 0 ≤ ty ∧ ty < yT

instance instDecidableInTileBounds (xT yT tx ty : ℤ) :
    Decidable (inTileBounds xT yT tx ty) :=
  inferInstanceAs (Decidable (0 ≤ tx ∧ tx < xT ∧ 0 ≤ ty ∧ ty < yT))

/-- The `(x, y)` pairs visited by `update`'s nested
`for (x = startX; x <= endX; x++) for (y = startY; y <= endY; y++)` loops. -/
def objectPairs (ts : ℚ) (o : SpatialGridObject) : List (ℤ × ℤ) :=
  (intRange (o.startX ts) (o.endX ts)).flatMap
    (fun x => (intRange (o.startY ts) (o.endY ts)).map (fun y => (x, y)))

/-- The body of `update`'s nested loops for one object:
`if (in bounds) this.#grid[tileIndex].push(obj)` at each visited pair. -/
def registerTiles (xT yT : ℤ) (obj : SpatialGridObject) (pairs : List (ℤ × ℤ))
    (G : List (List SpatialGridObject)) : List (List SpatialGridObject) :=
  pairs.foldl
    (fun G p =>
      if inTileBounds xT yT p.1 p.2 then
        G.set (tileIndex xT p.1 p.2).toNat ((G.getD (tileIndex xT p.1 p.2).toNat []) ++ [obj])
      else G)
    G

/-- `update()`: clears `#grid` to `xTiles * yTiles` empty buckets, then
registers every live object into every in-bounds tile of its extent range. -/
def SpatialGrid.update (g : SpatialGrid) : SpatialGrid :=
  let grid' := g.objects.foldl
    (fun G obj => registerTiles g.xTiles g.yTiles obj (objectPairs g.tileSize obj) G)
    (List.replicate (g.xTiles * g.yTiles).toNat [])
  { g with grid := grid' }

/-- `this.#grid[i]` for an integer index: `none` models JavaScript's
`undefined` (negative or out-of-range access). -/
def SpatialGrid.gridAt (g : SpatialGrid) (i : ℤ) : Option (List SpatialGridObject) :=
  if 0 ≤ i then g.grid[i.toNat]? else none

/-- `Set.add` on a `Set<SpatialGridObject>`, keeping insertion order. -/
def insertUnique (l : List SpatialGridObject) (o : SpatialGridObject) :
    List SpatialGridObject :=
  if o ∈ l then l else l ++ [o]

/-- `for (const obj of bucket) set.add(obj)` -/
def addBucket (acc bucket : List SpatialGridObject) : List SpatialGridObject :=
  bucket.foldl insertUnique acc

/-- The offset pairs visited by the nested
`for (offsetX = -n; offsetX <= n; offsetX++) for (offsetY = -n; offsetY <= n; offsetY++)`
loops (used by `getNeighbors` and by the line query's width expansion). -/
def offsetPairs (n : ℤ) : List (ℤ × ℤ) :=
  (intRange (-n) n).flatMap (fun oX => (intRange (-n) n).map (fun oY => (oX, oY)))

/-- `getNeighbors(x, y, neighborTiles)`. -/
def SpatialGrid.getNeighbors (g : SpatialGrid) (x y : ℚ) (neighborTiles : ℤ) :
    Option (List SpatialGridObject) :=
  let tileX := ⌊x / g.tileSize⌋
  let tileY := ⌊y / g.tileSize⌋
  (offsetPairs neighborTiles).foldlM
    (fun acc p =>
      if inTileBounds g.xTiles g.yTiles (tileX + p.1) (tileY + p.2) then
        (g.gridAt (tileIndex g.xTiles (tileX + p.1) (tileY + p.2))).map
          (fun bucket => addBucket acc bucket)
      else some acc)
    []

/-- The exact geometric filter of `getObjectsIntersectingCircle`:
`(obj.x - x)² + (obj.y - y)² <= (objRadius + radius)²` with
`objRadius = obj.radius || 0`. -/
def circlePasses (x y radius : ℚ) (obj : SpatialGridObject) : Prop :=
  (obj.x - x) * (obj.x - x) + (obj.y - y) * (obj.y - y) ≤
    (obj.radius.getD 0 + radius) * (obj.radius.getD 0 + radius)

instance instDecidableCirclePasses (x y radius : ℚ) (obj : SpatialGridObject) :
    Decidable (circlePasses x y radius obj) :=
  inferInstanceAs (Decidable (_ ≤ _))

/-- `getObjectsIntersectingCircle(x, y, radius)`. -/
def SpatialGrid.getObjectsIntersectingCircle (g : SpatialGrid) (x y radius : ℚ) :
    Option (List SpatialGridObject) :=
  (g.getNeighbors x y ⌈radius / g.tileSize⌉).map
    (fun candidates => candidates.filter (fun obj => decide (circlePasses x y radius obj)))

/-- The exact filter of `getObjectsIntersectingRect`:
`objRight >= x && objLeft <= x + width && objBottom >= y && objTop <= y + height`
with each edge defaulting to the center coordinate (`?? obj.x` / `?? obj.y`). -/
def rectPasses (x y width height : ℚ) (obj : SpatialGridObject) : Prop :=
  obj.right.getD obj.x ≥ x ∧ obj.left.getD obj.x ≤ x + width ∧
    obj.bottom.getD obj.y ≥ y ∧ obj.top.getD obj.y ≤ y + height

instance instDecidableRectPasses (x y width height : ℚ) (obj : SpatialGridObject) :
    Decidable (rectPasses x y width height obj) :=
  inferInstanceAs (Decidable (_ ∧ _ ∧ _ ∧ _))

/-- `getObjectsIntersectingRect(x, y, width, height)`.  Note: the source pushes
matches per visited tile with no deduplication. -/
def SpatialGrid.getObjectsIntersectingRect (g : SpatialGrid) (x y width height : ℚ) :
    Option (List SpatialGridObject) :=
  let startX := ⌊x / g.tileSize⌋
  let startY := ⌊y / g.tileSize⌋
  let endX := ⌊(x + width) / g.tileSize⌋
  let endY := ⌊(y + height) / g.tileSize⌋
  ((intRange startX endX).flatMap (fun tX => (intRange startY endY).map (fun tY => (tX, tY)))).foldlM
    (fun acc p =>
      if inTileBounds g.xTiles g.yTiles p.1 p.2 then
        (g.gridAt (tileIndex g.xTiles p.1 p.2)).map
          (fun bucket => acc ++ bucket.filter (fun obj => decide (rectPasses x y width height obj)))
      else some acc)
    []

/-- The `while (true)` Bresenham loop of `getObjectsIntersectingLine`, with an
explicit fuel parameter.  The source loop reaches `(x1, y1)` within
`max(dx, dy) + 1` iterations, so fuel `dx + dy + 1` makes the recursion total
without changing the computed tile list. -/
def bresenhamLoop (xT yT x1 y1 dx dy sx sy : ℤ) :
    Nat → ℤ → ℤ → ℤ → List (ℤ × ℤ) → List (ℤ × ℤ)
  | 0, _, _, _, acc => acc
  | fuel + 1, x0, y0, err, acc =>
    let acc' := if inTileBounds xT yT x0 y0 then acc ++ [(x0, y0)] else acc
    if x0 = x1 ∧ y0 = y1 then acc'
    else
      let e2 := 2 * err
      let err1 := if e2 > -dy then err - dy else err
      let x0' := if e2 > -dy then x0 + sx else x0
      let err2 := if e2 < dx then err1 + dx else err1
      let y0' := if e2 < dx then y0 + sy else y0
      bresenhamLoop xT yT x1 y1 dx dy sx sy fuel x0' y0' err2 acc'

/-- The width-expansion phase: for each traversed tile, every in-bounds tile
within Chebyshev distance `k`.  A `Set` of fresh `{x, y}` literals never
deduplicates, so the result is a plain list. -/
def expandTiles (xT yT k : ℤ) (tiles : List (ℤ × ℤ)) : List (ℤ × ℤ) :=
  tiles.flatMap (fun t =>
    (offsetPairs k).filterMap (fun p =>
      if inTileBounds xT yT (t.1 + p.1) (t.2 + p.2) then some (t.1 + p.1, t.2 + p.2)
      else none))

/-- The candidate-collection phase of the line query: bucket contents of every
expanded tile, deduplicated by identity.  The source performs no bounds check
here (expansion already filtered), and no `#grid` length check: a missing
bucket is `none`. -/
def collectBuckets (g : SpatialGrid) (tiles : List (ℤ × ℤ)) :
    Option (List SpatialGridObject) :=
  tiles.foldlM
    (fun acc t =>
      (g.gridAt (tileIndex g.xTiles t.1 t.2)).map (fun bucket => addBucket acc bucket))
    []

/-- The exact filter of `getObjectsIntersectingLine`: clamped closest-point
projection on the segment, then
`dist² <= (objRadius + width/2)²` with `objRadius = obj.radius || 0`.
(`ℚ` division by zero is 0, so this is only meaningful for `from ≠ to`,
matching the spec's declared undefined behavior for zero-length segments.) -/
def linePasses (fromX fromY toX toY width : ℚ) (obj : SpatialGridObject) : Prop :=
  ((obj.x - (fromX + lineT fromX fromY toX toY obj * (toX - fromX))) *
      (obj.x - (fromX + lineT fromX fromY toX toY obj * (toX - fromX))) +
    (obj.y - (fromY + lineT fromX fromY toX toY obj * (toY - fromY))) *
      (obj.y - (fromY + lineT fromX fromY toX toY obj * (toY - fromY)))) ≤
    (obj.radius.getD 0 + width / 2) * (obj.radius.getD 0 + width / 2)
where
  /-- `t = Math.max(0, Math.min(1, ((objX-fromX)*(toX-fromX) + (objY-fromY)*(toY-fromY)) / lineLengthSquared))` -/
  lineT (fromX fromY toX toY : ℚ) (obj : SpatialGridObject) : ℚ :=
    max 0 (min 1 (((obj.x - fromX) * (toX - fromX) + (obj.y - fromY) * (toY - fromY)) /
      ((toX - fromX) ^ 2 + (toY - fromY) ^ 2)))

instance instDecidableLinePasses (fromX fromY toX toY width : ℚ)
    (obj : SpatialGridObject) : Decidable (linePasses fromX fromY toX toY width obj) :=
  inferInstanceAs (Decidable (_ ≤ _))

/-- `getObjectsIntersectingLine(fromX, fromY, toX, toY, width)`. -/
def SpatialGrid.getObjectsIntersectingLine (g : SpatialGrid)
    (fromX fromY toX toY width : ℚ) : Option (List SpatialGridObject) :=
  let x0 := ⌊fromX / g.tileSize⌋
  let y0 := ⌊fromY / g.tileSize⌋
  let x1 := ⌊toX / g.tileSize⌋
  let y1 := ⌊toY / g.tileSize⌋
  let dx := |x1 - x0|
  let dy := |y1 - y0|
  let sx : ℤ := if x0 < x1 then 1 else -1
  let sy : ℤ := if y0 < y1 then 1 else -1
  let lineTiles := bresenhamLoop g.xTiles g.yTiles x1 y1 dx dy sx sy
    ((dx + dy).toNat + 1) x0 y0 (dx - dy) []
  let expanded := expandTiles g.xTiles g.yTiles ⌈width / (2 * g.tileSize)⌉ lineTiles
  (collectBuckets g expanded).map
    (fun candidates =>
      candidates.filter (fun obj => decide (linePasses fromX fromY toX toY width obj)))

/-- An object's extent tile range (per the `??`-resolution rule) contains
tile `(tx, ty)`:  exactly the condition under which `update`'s loops visit
that pair for the object. -/
def covers (ts : ℚ) (o : SpatialGridObject) (tx ty : ℤ) : Prop :=
  o.startX ts ≤ tx ∧ tx ≤ o.endX ts ∧ o.startY ts ≤ ty ∧ ty ≤ o.endY ts

instance instDecidableCovers (ts : ℚ) (o : SpatialGridObject) (tx ty : ℤ) :
    Decidable (covers ts o tx ty) :=
  inferInstanceAs (Decidable (_ ∧ _ ∧ _ ∧ _))

/-! ### Basic lemmas about the iteration helpers -/

theorem mem_intRange {a b v : ℤ} : v ∈ intRange a b ↔ a ≤ v ∧ v ≤ b := by
  constructor
  · intro hv
    obtain ⟨i, hi, hv⟩ := List.mem_map.mp hv
    rw [List.mem_range] at hi
    omega
  · intro h
    refine List.mem_map.mpr ⟨(v - a).toNat, ?_, ?_⟩
    · rw [List.mem_range]; omega
    · omega

theorem intRange_nodup (a b : ℤ) : (intRange a b).Nodup := by
  refine List.Nodup.map ?_ (List.nodup_range _)
  intro i j hij
  exact Nat.cast_injective (add_left_cancel hij)

theorem intRange_empty {a b : ℤ} (h : b < a) : intRange a b = [] := by
  unfold intRange
  have h0 : (b + 1 - a).toNat = 0 := by omega
  rw [h0]
  rfl

theorem mem_pairList {l1 l2 : List ℤ} {p : ℤ × ℤ} :
    p ∈ l1.flatMap (fun u => l2.map (fun v => (u, v))) ↔ p.1 ∈ l1 ∧ p.2 ∈ l2 := by
  simp only [List.mem_flatMap, List.mem_map]
  constructor
  · rintro ⟨u, hu, v, hv, rfl⟩
    exact ⟨hu, hv⟩
  · rintro ⟨h1, h2⟩
    exact ⟨p.1, h1, p.2, h2, rfl⟩

theorem pairList_nodup {l1 l2 : List ℤ} (h1 : l1.Nodup) (h2 : l2.Nodup) :
    (l1.flatMap (fun u => l2.map (fun v => (u, v)))).Nodup := by
  rw [List.nodup_flatMap]
  constructor
  · intro u _
    exact h2.map (fun v w hvw => congrArg Prod.snd hvw)
  · refine h1.imp ?_
    intro u u' huu p hp hq
    simp only [Function.onFun, List.mem_map] at hp hq
    obtain ⟨v, _, rfl⟩ := hp
    obtain ⟨w, _, h⟩ := hq
    exact huu (congrArg Prod.fst h).symm

theorem mem_objectPairs {ts : ℚ} {o : SpatialGridObject} {p : ℤ × ℤ} :
    p ∈ objectPairs ts o ↔
      o.startX ts ≤ p.1 ∧ p.1 ≤ o.endX ts ∧ o.startY ts ≤ p.2 ∧ p.2 ≤ o.endY ts := by
  unfold objectPairs
  rw [mem_pairList, mem_intRange, mem_intRange]
  tauto

theorem objectPairs_nodup (ts : ℚ) (o : SpatialGridObject) : (objectPairs ts o).Nodup :=
  pairList_nodup (intRange_nodup _ _) (intRange_nodup _ _)

theorem mem_offsetPairs {n : ℤ} {p : ℤ × ℤ} :
    p ∈ offsetPairs n ↔ -n ≤ p.1 ∧ p.1 ≤ n ∧ -n ≤ p.2 ∧ p.2 ≤ n := by
  unfold offsetPairs
  rw [mem_pairList, mem_intRange, mem_intRange]
  tauto

theorem offsetPairs_neg {n : ℤ} (hn : n < 0) : offsetPairs n = [] := by
  unfold offsetPairs
  rw [intRange_empty (by omega)]
  rfl

theorem mem_insertUnique {l : List SpatialGridObject} {o x : SpatialGridObject} :
    x ∈ insertUnique l o ↔ x ∈ l ∨ x = o := by
  unfold insertUnique
  split
  · rename_i h
    constructor
    · exact Or.inl
    · rintro (hx | rfl)
      · exact hx
      · exact h
  · simp

theorem insertUnique_nodup {l : List SpatialGridObject} {o : SpatialGridObject}
    (h : l.Nodup) : (insertUnique l o).Nodup := by
  unfold insertUnique
  split
  · exact h
  · rename_i ho
    simp [List.nodup_append, h, ho]

theorem mem_addBucket {acc bucket : List SpatialGridObject} {x : SpatialGridObject} :
    x ∈ addBucket acc bucket ↔ x ∈ acc ∨ x ∈ bucket := by
  induction bucket generalizing acc with
  | nil => simp [addBucket]
  | cons b bs ih =>
    show x ∈ addBucket (insertUnique acc b) bs ↔ _
    rw [ih, mem_insertUnique]
    simp only [List.mem_cons]
    tauto

theorem addBucket_nodup {acc bucket : List SpatialGridObject} (h : acc.Nodup) :
    (addBucket acc bucket).Nodup := by
  induction bucket generalizing acc with
  | nil => exact h
  | cons b bs ih => exact ih (insertUnique_nodup h)

/-! ### Tile index arithmetic -/

theorem tileIndex_nonneg {xT yT tx ty : ℤ} (h : inTileBounds xT yT tx ty) :
    0 ≤ tileIndex xT tx ty := by
  obtain ⟨h1, h2, h3, h4⟩ := h
  have hxT : 0 < xT := lt_of_le_of_lt h1 h2
  have : 0 ≤ ty * xT := mul_nonneg h3 hxT.le
  unfold tileIndex
  omega

theorem tileIndex_lt {xT yT tx ty : ℤ} (h : inTileBounds xT yT tx ty) :
    tileIndex xT tx ty < xT * yT := by
  obtain ⟨h1, h2, h3, h4⟩ := h
  have hxT : 0 < xT := lt_of_le_of_lt h1 h2
  have h5 : ty * xT ≤ (yT - 1) * xT :=
    mul_le_mul_of_nonneg_right (by omega) hxT.le
  unfold tileIndex
  nlinarith

theorem tileIndex_toNat_lt {xT yT tx ty : ℤ} (h : inTileBounds xT yT tx ty) :
    (tileIndex xT tx ty).toNat < (xT * yT).toNat := by
  have h1 := tileIndex_nonneg h
  have h2 := tileIndex_lt h
  omega

theorem tileIndex_inj {xT yT tx ty tx' ty' : ℤ} (h : inTileBounds xT yT tx ty)
    (h' : inTileBounds xT yT tx' ty') (he : tileIndex xT tx ty = tileIndex xT tx' ty') :
    tx = tx' ∧ ty = ty' := by
  obtain ⟨h1, h2, h3, h4⟩ := h
  obtain ⟨h1', h2', h3', h4'⟩ := h'
  unfold tileIndex at he
  have hxT : 0 < xT := lt_of_le_of_lt h1 h2
  have hx : tx = tx' := by
    have e1 : (tx + ty * xT) % xT = tx := by
      rw [Int.add_mul_emod_self]
      exact Int.emod_eq_of_lt h1 h2
    have e2 : (tx' + ty' * xT) % xT = tx' := by
      rw [Int.add_mul_emod_self]
      exact Int.emod_eq_of_lt h1' h2'
    have he' : tx + ty * xT = tx' + ty' * xT := by omega
    rw [← e1, ← e2, he']
  refine ⟨hx, ?_⟩
  have : ty * xT = ty' * xT := by omega
  exact mul_right_cancel₀ (by omega) this

theorem tileIndex_toNat_inj {xT yT tx ty tx' ty' : ℤ} (h : inTileBounds xT yT tx ty)
    (h' : inTileBounds xT yT tx' ty')
    (he : (tileIndex xT tx ty).toNat = (tileIndex xT tx' ty').toNat) :
    tx = tx' ∧ ty = ty' := by
  apply tileIndex_inj h h'
  have h1 := tileIndex_nonneg h
  have h2 := tileIndex_nonneg h'
  omega

/-! ### Characterization of `update`'s bucket table -/

theorem registerTiles_nil (xT yT : ℤ) (obj : SpatialGridObject) (G : List (List SpatialGridObject)) :
    registerTiles xT yT obj [] G = G := rfl

theorem registerTiles_cons (xT yT : ℤ) (obj : SpatialGridObject) (p : ℤ × ℤ)
    (ps : List (ℤ × ℤ)) (G : List (List SpatialGridObject)) :
    registerTiles xT yT obj (p :: ps) G =
      registerTiles xT yT obj ps
        (if inTileBounds xT yT p.1 p.2 then
          G.set (tileIndex xT p.1 p.2).toNat ((G.getD (tileIndex xT p.1 p.2).toNat []) ++ [obj])
        else G) := rfl

theorem registerTiles_length (xT yT : ℤ) (obj : SpatialGridObject) (ps : List (ℤ × ℤ))
    (G : List (List SpatialGridObject)) :
    (registerTiles xT yT obj ps G).length = G.length := by
  induction ps generalizing G with
  | nil => rfl
  | cons p ps ih =>
    rw [registerTiles_cons, ih]
    split <;> simp

theorem registerTiles_getElem?_of_notMem {xT yT tx ty : ℤ} {obj : SpatialGridObject}
    {ps : List (ℤ × ℤ)} {G : List (List SpatialGridObject)}
    (h : inTileBounds xT yT tx ty) (hni : (tx, ty) ∉ ps) :
    (registerTiles xT yT obj ps G)[(tileIndex xT tx ty).toNat]? =
      G[(tileIndex xT tx ty).toNat]? := by
  induction ps generalizing G with
  | nil => rfl
  | cons p ps ih =>
    rw [registerTiles_cons]
    have hni' : (tx, ty) ∉ ps := fun hm => hni (List.mem_cons_of_mem _ hm)
    rw [ih hni']
    split
    · rename_i hp
      have hpne : p ≠ (tx, ty) := fun he => hni (he ▸ List.mem_cons_self _ _)
      have hne : (tileIndex xT p.1 p.2).toNat ≠ (tileIndex xT tx ty).toNat := by
        intro he
        obtain ⟨e1, e2⟩ := tileIndex_toNat_inj hp h he
        exact hpne (Prod.ext e1 e2)
      exact List.getElem?_set_ne hne
    · rfl

theorem registerTiles_getElem? {xT yT tx ty : ℤ} {obj : SpatialGridObject}
    {ps : List (ℤ × ℤ)} {G : List (List SpatialGridObject)}
    (h : inTileBounds xT yT tx ty) (hnd : ps.Nodup)
    (hlt : (tileIndex xT tx ty).toNat < G.length) :
    (registerTiles xT yT obj ps G)[(tileIndex xT tx ty).toNat]? =
      (G[(tileIndex xT tx ty).toNat]?).map
        (fun b => b ++ if (tx, ty) ∈ ps then [obj] else []) := by
  induction ps generalizing G with
  | nil =>
    rw [registerTiles_nil]
    rw [List.getElem?_eq_getElem hlt]
    simp
  | cons p ps ih =>
    have hiff : ((tx, ty) ∈ p :: ps) ↔ ((tx, ty) = p ∨ (tx, ty) ∈ ps) := List.mem_cons
    by_cases hp : p = (tx, ty)
    · rw [registerTiles_cons]
      have hp' : inTileBounds xT yT p.1 p.2 := by rw [hp]; exact h
      rw [if_pos hp', hp]
      dsimp only
      have hnotmem : (tx, ty) ∉ ps := by rw [← hp]; exact (List.nodup_cons.mp hnd).1
      rw [registerTiles_getElem?_of_notMem h hnotmem]
      rw [List.getElem?_set_self (by simpa using hlt)]
      rw [List.getD_eq_getElem?_getD, List.getElem?_eq_getElem hlt]
      simp
    · rw [registerTiles_cons]
      have hmem : ((tx, ty) ∈ p :: ps) ↔ ((tx, ty) ∈ ps) := by
        rw [hiff]
        constructor
        · rintro (he | hm)
          · exact absurd he.symm hp
          · exact hm
        · exact Or.inr
      have hnd' : ps.Nodup := (List.nodup_cons.mp hnd).2
      split
      · rename_i hpb
        have hne : (tileIndex xT p.1 p.2).toNat ≠ (tileIndex xT tx ty).toNat := by
          intro he
          obtain ⟨e1, e2⟩ := tileIndex_toNat_inj hpb h he
          exact hp (Prod.ext e1 e2)
        have hlt' : (tileIndex xT tx ty).toNat <
            (G.set (tileIndex xT p.1 p.2).toNat
              ((G.getD (tileIndex xT p.1 p.2).toNat []) ++ [obj])).length := by
          simpa using hlt
        rw [ih hnd' hlt', List.getElem?_set_ne hne]
        simp only [hmem]
      · rw [ih hnd' hlt]
        simp only [hmem]

theorem registerFold_length (xT yT : ℤ) (ts : ℚ) (os : List SpatialGridObject)
    (G : List (List SpatialGridObject)) :
    (os.foldl (fun G obj => registerTiles xT yT obj (objectPairs ts obj) G) G).length =
      G.length := by
  induction os generalizing G with
  | nil => rfl
  | cons o os ih =>
    rw [List.foldl_cons, ih, registerTiles_length]

theorem registerFold_getElem? {xT yT tx ty : ℤ} {ts : ℚ} (os : List SpatialGridObject)
    (h : inTileBounds xT yT tx ty) :
    ∀ (G : List (List SpatialGridObject)) (b : List SpatialGridObject),
      (tileIndex xT tx ty).toNat < G.length →
      G[(tileIndex xT tx ty).toNat]? = some b →
      (os.foldl (fun G obj => registerTiles xT yT obj (objectPairs ts obj) G)
          G)[(tileIndex xT tx ty).toNat]? =
        some (b ++ os.filter (fun o => decide (covers ts o tx ty))) := by
  induction os with
  | nil =>
    intro G b hlt hG
    rw [List.foldl_nil, hG]
    simp
  | cons o os ih =>
    intro G b hlt hG
    rw [List.foldl_cons]
    have h1 := @registerTiles_getElem? xT yT tx ty o (objectPairs ts o) G h
      (objectPairs_nodup _ _) hlt
    rw [hG] at h1
    have hcov : ((tx, ty) ∈ objectPairs ts o) ↔ covers ts o tx ty := by
      rw [mem_objectPairs]
      exact Iff.rfl
    have hlt' : (tileIndex xT tx ty).toNat <
        (registerTiles xT yT o (objectPairs ts o) G).length := by
      rw [registerTiles_length]
      exact hlt
    by_cases hc : covers ts o tx ty
    · rw [if_pos (hcov.mpr hc)] at h1
      rw [ih _ _ hlt' h1]
      rw [List.filter_cons_of_pos (by simpa using hc)]
      simp
    · rw [if_neg (fun hm => hc (hcov.mp hm))] at h1
      rw [ih _ _ hlt' h1]
      rw [List.filter_cons_of_neg (by simpa using hc)]
      simp

theorem update_grid_eq (g : SpatialGrid) :
    (g.update).grid =
      g.objects.foldl
        (fun G obj => registerTiles g.xTiles g.yTiles obj (objectPairs g.tileSize obj) G)
        (List.replicate (g.xTiles * g.yTiles).toNat []) := rfl

theorem update_grid_length (g : SpatialGrid) :
    (g.update).grid.length = (g.xTiles * g.yTiles).toNat := by
  rw [update_grid_eq, registerFold_length]
  exact List.length_replicate _ _

theorem update_bucket (g : SpatialGrid) {tx ty : ℤ}
    (h : inTileBounds g.xTiles g.yTiles tx ty) :
    (g.update).grid[(tileIndex g.xTiles tx ty).toNat]? =
      some (g.objects.filter (fun o => decide (covers g.tileSize o tx ty))) := by
  have hlt : (tileIndex g.xTiles tx ty).toNat <
      (List.replicate ((g.xTiles * g.yTiles).toNat) ([] : List SpatialGridObject)).length := by
    rw [List.length_replicate]
    exact tileIndex_toNat_lt h
  have h0 : (List.replicate ((g.xTiles * g.yTiles).toNat)
      ([] : List SpatialGridObject))[(tileIndex g.xTiles tx ty).toNat]? = some [] :=
    List.getElem?_replicate_of_lt (tileIndex_toNat_lt h)
  have h1 := @registerFold_getElem? g.xTiles g.yTiles tx ty g.tileSize
    g.objects h _ _ hlt h0
  rw [List.nil_append] at h1
  rw [update_grid_eq]
  exact h1

theorem update_gridAt (g : SpatialGrid) {tx ty : ℤ}
    (h : inTileBounds g.xTiles g.yTiles tx ty) :
    (g.update).gridAt (tileIndex g.xTiles tx ty) =
      some (g.objects.filter (fun o => decide (covers g.tileSize o tx ty))) := by
  unfold SpatialGrid.gridAt
  rw [if_pos (tileIndex_nonneg h)]
  exact update_bucket g h

/-! ### State-preservation facts for `add`, `remove`, `update` -/

theorem add_grid (g : SpatialGrid) (os : List SpatialGridObject) :
    (g.add os).grid = g.grid := rfl

theorem remove_grid (g : SpatialGrid) (os : List SpatialGridObject) :
    (g.remove os).grid = g.grid := rfl

theorem add_objects (g : SpatialGrid) (os : List SpatialGridObject) :
    (g.add os).objects = g.objects ++ os := rfl

theorem remove_objects (g : SpatialGrid) (os : List SpatialGridObject) :
    (g.remove os).objects = g.objects.filter (fun o => !(os.contains o)) := rfl

theorem update_objects (g : SpatialGrid) : (g.update).objects = g.objects := rfl

theorem update_xTiles (g : SpatialGrid) : (g.update).xTiles = g.xTiles := rfl

theorem update_yTiles (g : SpatialGrid) : (g.update).yTiles = g.yTiles := rfl

theorem update_tileSize (g : SpatialGrid) : (g.update).tileSize = g.tileSize := rfl

/-! ### Every bucket element of an updated grid is a live object -/

theorem registerTiles_bucket_mem {xT yT : ℤ} {obj : SpatialGridObject}
    {ps : List (ℤ × ℤ)} {G : List (List SpatialGridObject)} {i : ℕ}
    {b : List SpatialGridObject} {z : SpatialGridObject}
    (hb : (registerTiles xT yT obj ps G)[i]? = some b) (hz : z ∈ b) :
    (∃ b', G[i]? = some b' ∧ z ∈ b') ∨ z = obj := by
  induction ps generalizing G with
  | nil =>
    rw [registerTiles_nil] at hb
    exact Or.inl ⟨b, hb, hz⟩
  | cons p ps ih =>
    rw [registerTiles_cons] at hb
    rcases ih hb with ⟨b', hb', hz'⟩ | he
    · revert hb'
      split
      · intro hb'
        rw [List.getElem?_set] at hb'
        by_cases hij : (tileIndex xT p.1 p.2).toNat = i
        · rw [if_pos hij] at hb'
          by_cases hlen : (tileIndex xT p.1 p.2).toNat < G.length
          · rw [if_pos hlen] at hb'
            obtain rfl : _ = b' := Option.some.inj hb'
            rcases List.mem_append.mp hz' with hz1 | hz2
            · rw [List.getD_eq_getElem?_getD] at hz1
              rcases he : G[(tileIndex xT p.1 p.2).toNat]? with _ | bg
              · rw [he] at hz1
                simp at hz1
              · rw [he] at hz1
                exact Or.inl ⟨bg, hij ▸ he, hz1⟩
            · exact Or.inr (List.mem_singleton.mp hz2)
          · rw [if_neg hlen] at hb'
            exact absurd hb' (by simp)
        · rw [if_neg hij] at hb'
          exact Or.inl ⟨b', hb', hz'⟩
      · intro hb'
        exact Or.inl ⟨b', hb', hz'⟩
    · exact Or.inr he

theorem registerFold_bucket_mem {xT yT : ℤ} {ts : ℚ} (os : List SpatialGridObject) :
    ∀ (G : List (List SpatialGridObject)) (i : ℕ) (b : List SpatialGridObject)
      (z : SpatialGridObject),
      (os.foldl (fun G obj => registerTiles xT yT obj (objectPairs ts obj) G) G)[i]? =
        some b → z ∈ b →
      (∃ b', G[i]? = some b' ∧ z ∈ b') ∨ z ∈ os := by
  induction os with
  | nil =>
    intro G i b z hb hz
    exact Or.inl ⟨b, hb, hz⟩
  | cons o os ih =>
    intro G i b z hb hz
    rw [List.foldl_cons] at hb
    rcases ih _ _ _ _ hb hz with ⟨b', hb', hz'⟩ | hos
    · rcases registerTiles_bucket_mem hb' hz' with ⟨b'', hb'', hz''⟩ | he
      · exact Or.inl ⟨b'', hb'', hz''⟩
      · exact Or.inr (he ▸ List.mem_cons_self _ _)
    · exact Or.inr (List.mem_cons_of_mem _ hos)

/-- Every object found in any bucket of the updated grid is a live object. -/
theorem update_bucket_mem_objects {g : SpatialGrid} {i : ℕ}
    {b : List SpatialGridObject} {z : SpatialGridObject}
    (hb : (g.update).grid[i]? = some b) (hz : z ∈ b) : z ∈ g.objects := by
  rw [update_grid_eq] at hb
  rcases registerFold_bucket_mem g.objects _ _ _ _ hb hz with ⟨b', hb', hz'⟩ | hos
  · rw [List.getElem?_replicate] at hb'
    split at hb'
    · obtain rfl : _ = b' := Option.some.inj hb'
      simp at hz'
    · exact absurd hb' (by simp)
  · exact hos

/-! ### Characterization of `getNeighbors` -/

/-- One bucket of the table, as a list (empty when the entry is missing). -/
def bucketAt (g : SpatialGrid) (tx ty : ℤ) : List SpatialGridObject :=
  (g.grid[(tileIndex g.xTiles tx ty).toNat]?).getD []

/-- The loop body of `getNeighbors`, relative to the base tile `(cX, cY)`. -/
def neighborStep (g : SpatialGrid) (cX cY : ℤ) (acc : List SpatialGridObject)
    (p : ℤ × ℤ) : Option (List SpatialGridObject) :=
  if inTileBounds g.xTiles g.yTiles (cX + p.1) (cY + p.2) then
    (g.gridAt (tileIndex g.xTiles (cX + p.1) (cY + p.2))).map
      (fun bucket => addBucket acc bucket)
  else some acc

theorem getNeighbors_eq (g : SpatialGrid) (x y : ℚ) (n : ℤ) :
    g.getNeighbors x y n =
      (offsetPairs n).foldlM (neighborStep g ⌊x / g.tileSize⌋ ⌊y / g.tileSize⌋) [] := rfl

theorem neighborFold_sound {g : SpatialGrid} {cX cY : ℤ} (ps : List (ℤ × ℤ)) :
    ∀ (acc l : List SpatialGridObject),
      ps.foldlM (neighborStep g cX cY) acc = some l →
      (∀ z ∈ l, z ∈ acc ∨ ∃ (i : ℕ) (b : List SpatialGridObject),
        g.grid[i]? = some b ∧ z ∈ b) ∧
        (acc.Nodup → l.Nodup) := by
  induction ps with
  | nil =>
    intro acc l hl
    obtain rfl : acc = l := Option.some.inj hl
    exact ⟨fun z hz => Or.inl hz, id⟩
  | cons p ps ih =>
    intro acc l hl
    rw [List.foldlM_cons] at hl
    obtain ⟨acc', hstep, hrest⟩ := Option.bind_eq_some.mp hl
    unfold neighborStep at hstep
    have key : (∀ z ∈ acc', z ∈ acc ∨ ∃ (i : ℕ) (b : List SpatialGridObject),
        g.grid[i]? = some b ∧ z ∈ b) ∧ (acc.Nodup → acc'.Nodup) := by
      revert hstep
      split
      · intro hstep
        obtain ⟨bucket, hbk, rfl⟩ := Option.map_eq_some'.mp hstep
        unfold SpatialGrid.gridAt at hbk
        split at hbk
        · constructor
          · intro z hz
            rcases mem_addBucket.mp hz with hz1 | hz2
            · exact Or.inl hz1
            · exact Or.inr ⟨_, bucket, hbk, hz2⟩
          · intro hnd
            exact addBucket_nodup hnd
        · exact absurd hbk (by simp)
      · intro hstep
        obtain rfl : acc = acc' := Option.some.inj hstep
        exact ⟨fun z hz => Or.inl hz, id⟩
    obtain ⟨hmem', hnd'⟩ := ih acc' l hrest
    constructor
    · intro z hz
      rcases hmem' z hz with hz1 | hz2
      · exact key.1 z hz1
      · exact Or.inr hz2
    · intro hnd
      exact hnd' (key.2 hnd)

theorem neighborFold_complete {g : SpatialGrid} {cX cY : ℤ}
    (hlen : g.grid.length = (g.xTiles * g.yTiles).toNat) (ps : List (ℤ × ℤ)) :
    ∀ acc : List SpatialGridObject,
      ∃ l, ps.foldlM (neighborStep g cX cY) acc = some l ∧
        ∀ z, z ∈ l ↔ (z ∈ acc ∨ ∃ p ∈ ps,
          inTileBounds g.xTiles g.yTiles (cX + p.1) (cY + p.2) ∧
            z ∈ bucketAt g (cX + p.1) (cY + p.2)) := by
  induction ps with
  | nil =>
    intro acc
    refine ⟨acc, rfl, ?_⟩
    simp
  | cons p ps ih =>
    intro acc
    by_cases hb : inTileBounds g.xTiles g.yTiles (cX + p.1) (cY + p.2)
    · have hidx : (tileIndex g.xTiles (cX + p.1) (cY + p.2)).toNat < g.grid.length := by
        rw [hlen]
        exact tileIndex_toNat_lt hb
      have hsome : g.grid[(tileIndex g.xTiles (cX + p.1) (cY + p.2)).toNat]? =
          some (bucketAt g (cX + p.1) (cY + p.2)) := by
        rw [List.getElem?_eq_getElem hidx]
        unfold bucketAt
        rw [List.getElem?_eq_getElem hidx]
        rfl
      have hstep : neighborStep g cX cY acc p =
          some (addBucket acc (bucketAt g (cX + p.1) (cY + p.2))) := by
        unfold neighborStep
        rw [if_pos hb]
        unfold SpatialGrid.gridAt
        rw [if_pos (tileIndex_nonneg hb), hsome]
        rfl
      obtain ⟨l, hl, hmem⟩ := ih (addBucket acc (bucketAt g (cX + p.1) (cY + p.2)))
      refine ⟨l, ?_, ?_⟩
      · rw [List.foldlM_cons, hstep]
        exact hl
      · intro z
        rw [hmem z]
        constructor
        · rintro (hz | ⟨q, hq, hqb, hqm⟩)
          · rcases mem_addBucket.mp hz with hz1 | hz2
            · exact Or.inl hz1
            · exact Or.inr ⟨p, List.mem_cons_self _ _, hb, hz2⟩
          · exact Or.inr ⟨q, List.mem_cons_of_mem _ hq, hqb, hqm⟩
        · rintro (hz | ⟨q, hq, hqb, hqm⟩)
          · exact Or.inl (mem_addBucket.mpr (Or.inl hz))
          · rcases List.mem_cons.mp hq with rfl | hq'
            · exact Or.inl (mem_addBucket.mpr (Or.inr hqm))
            · exact Or.inr ⟨q, hq', hqb, hqm⟩
    · have hstep : neighborStep g cX cY acc p = some acc := by
        unfold neighborStep
        rw [if_neg hb]
      obtain ⟨l, hl, hmem⟩ := ih acc
      refine ⟨l, ?_, ?_⟩
      · rw [List.foldlM_cons, hstep]
        exact hl
      · intro z
        rw [hmem z]
        constructor
        · rintro (hz | ⟨q, hq, hqb, hqm⟩)
          · exact Or.inl hz
          · exact Or.inr ⟨q, List.mem_cons_of_mem _ hq, hqb, hqm⟩
        · rintro (hz | ⟨q, hq, hqb, hqm⟩)
          · exact Or.inl hz
          · rcases List.mem_cons.mp hq with rfl | hq'
            · exact absurd hqb hb
            · exact Or.inr ⟨q, hq', hqb, hqm⟩

theorem getNeighbors_some {g : SpatialGrid} (x y : ℚ) (n : ℤ)
    (hlen : g.grid.length = (g.xTiles * g.yTiles).toNat) :
    ∃ l, g.getNeighbors x y n = some l ∧ l.Nodup ∧
      ∀ z, z ∈ l ↔ ∃ oX oY : ℤ, -n ≤ oX ∧ oX ≤ n ∧ -n ≤ oY ∧ oY ≤ n ∧
        inTileBounds g.xTiles g.yTiles (⌊x / g.tileSize⌋ + oX) (⌊y / g.tileSize⌋ + oY) ∧
        z ∈ bucketAt g (⌊x / g.tileSize⌋ + oX) (⌊y / g.tileSize⌋ + oY) := by
  obtain ⟨l, hl, hmem⟩ := neighborFold_complete hlen (offsetPairs n) []
  refine ⟨l, (getNeighbors_eq g x y n).symm ▸ hl, ?_, ?_⟩
  · exact ((neighborFold_sound (offsetPairs n) [] l hl).2) (List.nodup_nil)
  · intro z
    rw [hmem z]
    constructor
    · rintro (hz | ⟨p, hp, hpb, hpm⟩)
      · simp at hz
      · obtain ⟨h1, h2, h3, h4⟩ := mem_offsetPairs.mp hp
        exact ⟨p.1, p.2, h1, h2, h3, h4, hpb, hpm⟩
    · rintro ⟨oX, oY, h1, h2, h3, h4, hb, hm⟩
      exact Or.inr ⟨(oX, oY), mem_offsetPairs.mpr ⟨h1, h2, h3, h4⟩, hb, hm⟩

theorem getNeighbors_nodup_of_some {g : SpatialGrid} {x y : ℚ} {n : ℤ}
    {l : List SpatialGridObject} (hl : g.getNeighbors x y n = some l) : l.Nodup :=
  (neighborFold_sound (offsetPairs n) [] l ((getNeighbors_eq g x y n) ▸ hl)).2
    List.nodup_nil

theorem getNeighbors_mem_bucket {g : SpatialGrid} {x y : ℚ} {n : ℤ}
    {l : List SpatialGridObject} (hl : g.getNeighbors x y n = some l)
    {z : SpatialGridObject} (hz : z ∈ l) :
    ∃ (i : ℕ) (b : List SpatialGridObject), g.grid[i]? = some b ∧ z ∈ b := by
  rcases (neighborFold_sound (offsetPairs n) [] l
      ((getNeighbors_eq g x y n) ▸ hl)).1 z hz with h0 | h
  · simp at h0
  · exact h

/-! ### Characterization of the circle query -/

theorem getObjectsIntersectingCircle_eq (g : SpatialGrid) (x y radius : ℚ) :
    g.getObjectsIntersectingCircle x y radius =
      (g.getNeighbors x y ⌈radius / g.tileSize⌉).map
        (fun candidates =>
          candidates.filter (fun obj => decide (circlePasses x y radius obj))) := rfl

theorem circle_nodup_of_some {g : SpatialGrid} {x y radius : ℚ}
    {l : List SpatialGridObject}
    (hl : g.getObjectsIntersectingCircle x y radius = some l) : l.Nodup := by
  rw [getObjectsIntersectingCircle_eq] at hl
  obtain ⟨c, hc, rfl⟩ := Option.map_eq_some'.mp hl
  exact (getNeighbors_nodup_of_some hc).filter _

theorem circle_mem_bucket {g : SpatialGrid} {x y radius : ℚ}
    {l : List SpatialGridObject}
    (hl : g.getObjectsIntersectingCircle x y radius = some l)
    {z : SpatialGridObject} (hz : z ∈ l) :
    ∃ (i : ℕ) (b : List SpatialGridObject), g.grid[i]? = some b ∧ z ∈ b := by
  rw [getObjectsIntersectingCircle_eq] at hl
  obtain ⟨c, hc, rfl⟩ := Option.map_eq_some'.mp hl
  exact getNeighbors_mem_bucket hc (List.mem_of_mem_filter hz)

theorem circle_some {g : SpatialGrid} (x y radius : ℚ)
    (hlen : g.grid.length = (g.xTiles * g.yTiles).toNat) :
    ∃ l, g.getObjectsIntersectingCircle x y radius = some l ∧
      ∀ z, z ∈ l ↔ circlePasses x y radius z ∧
        ∃ oX oY : ℤ, -⌈radius / g.tileSize⌉ ≤ oX ∧ oX ≤ ⌈radius / g.tileSize⌉ ∧
          -⌈radius / g.tileSize⌉ ≤ oY ∧ oY ≤ ⌈radius / g.tileSize⌉ ∧
          inTileBounds g.xTiles g.yTiles (⌊x / g.tileSize⌋ + oX) (⌊y / g.tileSize⌋ + oY) ∧
          z ∈ bucketAt g (⌊x / g.tileSize⌋ + oX) (⌊y / g.tileSize⌋ + oY) := by
  obtain ⟨c, hc, hnd, hmem⟩ := getNeighbors_some x y ⌈radius / g.tileSize⌉ hlen
  refine ⟨c.filter (fun obj => decide (circlePasses x y radius obj)), ?_, ?_⟩
  · rw [getObjectsIntersectingCircle_eq, hc]
    rfl
  · intro z
    rw [List.mem_filter, hmem z]
    constructor
    · rintro ⟨hm, hp⟩
      exact ⟨of_decide_eq_true hp, hm⟩
    · rintro ⟨hp, hm⟩
      exact ⟨hm, decide_eq_true hp⟩

/-! ### Characterization of the rect query -/

/-- The loop body of `getObjectsIntersectingRect`: matches are appended
per visited tile (no deduplication). -/
def rectStep (g : SpatialGrid) (x y width height : ℚ)
    (acc : List SpatialGridObject) (p : ℤ × ℤ) : Option (List SpatialGridObject) :=
  if inTileBounds g.xTiles g.yTiles p.1 p.2 then
    (g.gridAt (tileIndex g.xTiles p.1 p.2)).map
      (fun bucket =>
        acc ++ bucket.filter (fun obj => decide (rectPasses x y width height obj)))
  else some acc

theorem getObjectsIntersectingRect_eq (g : SpatialGrid) (x y width height : ℚ) :
    g.getObjectsIntersectingRect x y width height =
      ((intRange ⌊x / g.tileSize⌋ ⌊(x + width) / g.tileSize⌋).flatMap
        (fun tX => (intRange ⌊y / g.tileSize⌋ ⌊(y + height) / g.tileSize⌋).map
          (fun tY => (tX, tY)))).foldlM (rectStep g x y width height) [] := rfl

theorem rectFold_sound {g : SpatialGrid} {x y width height : ℚ}
    (ps : List (ℤ × ℤ)) :
    ∀ (acc l : List SpatialGridObject),
      ps.foldlM (rectStep g x y width height) acc = some l →
      ∀ z ∈ l, z ∈ acc ∨ ((∃ (i : ℕ) (b : List SpatialGridObject),
        g.grid[i]? = some b ∧ z ∈ b) ∧ rectPasses x y width height z) := by
  induction ps with
  | nil =>
    intro acc l hl
    obtain rfl : acc = l := Option.some.inj hl
    exact fun z hz => Or.inl hz
  | cons p ps ih =>
    intro acc l hl
    rw [List.foldlM_cons] at hl
    obtain ⟨acc', hstep, hrest⟩ := Option.bind_eq_some.mp hl
    unfold rectStep at hstep
    have key : ∀ z ∈ acc', z ∈ acc ∨ ((∃ (i : ℕ) (b : List SpatialGridObject),
        g.grid[i]? = some b ∧ z ∈ b) ∧ rectPasses x y width height z) := by
      revert hstep
      split
      · intro hstep
        obtain ⟨bucket, hbk, rfl⟩ := Option.map_eq_some'.mp hstep
        unfold SpatialGrid.gridAt at hbk
        split at hbk
        · intro z hz
          rcases List.mem_append.mp hz with hz1 | hz2
          · exact Or.inl hz1
          · obtain ⟨hzb, hzp⟩ := List.mem_filter.mp hz2
            exact Or.inr ⟨⟨_, bucket, hbk, hzb⟩, of_decide_eq_true hzp⟩
        · exact absurd hbk (by simp)
      · intro hstep
        obtain rfl : acc = acc' := Option.some.inj hstep
        exact fun z hz => Or.inl hz
    intro z hz
    rcases ih acc' l hrest z hz with hz1 | hz2
    · exact key z hz1
    · exact Or.inr hz2

theorem rect_sound {g : SpatialGrid} {x y width height : ℚ}
    {l : List SpatialGridObject}
    (hl : g.getObjectsIntersectingRect x y width height = some l)
    {z : SpatialGridObject} (hz : z ∈ l) :
    (∃ (i : ℕ) (b : List SpatialGridObject), g.grid[i]? = some b ∧ z ∈ b) ∧
      rectPasses x y width height z := by
  rw [getObjectsIntersectingRect_eq] at hl
  rcases rectFold_sound _ [] l hl z hz with h0 | h
  · simp at h0
  · exact h

/-! ### Characterization of the line query -/

theorem getObjectsIntersectingLine_eq (g : SpatialGrid)
    (fromX fromY toX toY width : ℚ) :
    g.getObjectsIntersectingLine fromX fromY toX toY width =
      (collectBuckets g
        (expandTiles g.xTiles g.yTiles ⌈width / (2 * g.tileSize)⌉
          (bresenhamLoop g.xTiles g.yTiles ⌊toX / g.tileSize⌋ ⌊toY / g.tileSize⌋
            |⌊toX / g.tileSize⌋ - ⌊fromX / g.tileSize⌋|
            |⌊toY / g.tileSize⌋ - ⌊fromY / g.tileSize⌋|
            (if ⌊fromX / g.tileSize⌋ < ⌊toX / g.tileSize⌋ then 1 else -1)
            (if ⌊fromY / g.tileSize⌋ < ⌊toY / g.tileSize⌋ then 1 else -1)
            ((|⌊toX / g.tileSize⌋ - ⌊fromX / g.tileSize⌋| +
              |⌊toY / g.tileSize⌋ - ⌊fromY / g.tileSize⌋|).toNat + 1)
            ⌊fromX / g.tileSize⌋ ⌊fromY / g.tileSize⌋
            (|⌊toX / g.tileSize⌋ - ⌊fromX / g.tileSize⌋| -
              |⌊toY / g.tileSize⌋ - ⌊fromY / g.tileSize⌋|) []))).map
        (fun candidates =>
          candidates.filter (fun obj => decide (linePasses fromX fromY toX toY width obj))) := rfl

theorem mem_expandTiles {xT yT k : ℤ} {tiles : List (ℤ × ℤ)} {q : ℤ × ℤ} :
    q ∈ expandTiles xT yT k tiles ↔
      ∃ t ∈ tiles, ∃ oX oY : ℤ, -k ≤ oX ∧ oX ≤ k ∧ -k ≤ oY ∧ oY ≤ k ∧
        inTileBounds xT yT (t.1 + oX) (t.2 + oY) ∧ q = (t.1 + oX, t.2 + oY) := by
  unfold expandTiles
  simp only [List.mem_flatMap, List.mem_filterMap]
  constructor
  · rintro ⟨t, ht, p, hp, hq⟩
    obtain ⟨h1, h2, h3, h4⟩ := mem_offsetPairs.mp hp
    split at hq
    · rename_i hb
      obtain rfl : _ = q := Option.some.inj hq
      exact ⟨t, ht, p.1, p.2, h1, h2, h3, h4, hb, rfl⟩
    · exact absurd hq (by simp)
  · rintro ⟨t, ht, oX, oY, h1, h2, h3, h4, hb, rfl⟩
    refine ⟨t, ht, (oX, oY), mem_offsetPairs.mpr ⟨h1, h2, h3, h4⟩, ?_⟩
    rw [if_pos hb]

theorem expandTiles_inBounds {xT yT k : ℤ} {tiles : List (ℤ × ℤ)} {q : ℤ × ℤ}
    (hq : q ∈ expandTiles xT yT k tiles) : inTileBounds xT yT q.1 q.2 := by
  obtain ⟨t, _, oX, oY, _, _, _, _, hb, rfl⟩ := mem_expandTiles.mp hq
  exact hb

theorem collectBuckets_sound {g : SpatialGrid} (tiles : List (ℤ × ℤ)) :
    ∀ (acc l : List SpatialGridObject),
      tiles.foldlM (fun acc t =>
          (g.gridAt (tileIndex g.xTiles t.1 t.2)).map (fun bucket => addBucket acc bucket))
        acc = some l →
      (∀ z ∈ l, z ∈ acc ∨ ∃ (i : ℕ) (b : List SpatialGridObject),
        g.grid[i]? = some b ∧ z ∈ b) ∧ (acc.Nodup → l.Nodup) := by
  induction tiles with
  | nil =>
    intro acc l hl
    obtain rfl : acc = l := Option.some.inj hl
    exact ⟨fun z hz => Or.inl hz, id⟩
  | cons t ts ih =>
    intro acc l hl
    rw [List.foldlM_cons] at hl
    obtain ⟨acc', hstep, hrest⟩ := Option.bind_eq_some.mp hl
    obtain ⟨bucket, hbk, rfl⟩ := Option.map_eq_some'.mp hstep
    unfold SpatialGrid.gridAt at hbk
    have key : (∀ z ∈ addBucket acc bucket, z ∈ acc ∨ ∃ (i : ℕ) (b : List SpatialGridObject),
        g.grid[i]? = some b ∧ z ∈ b) ∧ (acc.Nodup → (addBucket acc bucket).Nodup) := by
      split at hbk
      · constructor
        · intro z hz
          rcases mem_addBucket.mp hz with hz1 | hz2
          · exact Or.inl hz1
          · exact Or.inr ⟨_, bucket, hbk, hz2⟩
        · intro hnd
          exact addBucket_nodup hnd
      · exact absurd hbk (by simp)
    obtain ⟨hmem', hnd'⟩ := ih _ l hrest
    constructor
    · intro z hz
      rcases hmem' z hz with hz1 | hz2
      · exact key.1 z hz1
      · exact Or.inr hz2
    · intro hnd
      exact hnd' (key.2 hnd)

theorem collectBuckets_complete {g : SpatialGrid}
    (hlen : g.grid.length = (g.xTiles * g.yTiles).toNat) (tiles : List (ℤ × ℤ))
    (htl : ∀ t ∈ tiles, inTileBounds g.xTiles g.yTiles t.1 t.2) :
    ∃ l, collectBuckets g tiles = some l ∧
      ∀ z, z ∈ l ↔ ∃ t ∈ tiles, z ∈ bucketAt g t.1 t.2 := by
  unfold collectBuckets
  suffices h : ∀ acc : List SpatialGridObject,
      ∃ l, tiles.foldlM (fun acc t =>
          (g.gridAt (tileIndex g.xTiles t.1 t.2)).map (fun bucket => addBucket acc bucket))
        acc = some l ∧
        ∀ z, z ∈ l ↔ z ∈ acc ∨ ∃ t ∈ tiles, z ∈ bucketAt g t.1 t.2 by
    obtain ⟨l, hl, hmem⟩ := h []
    refine ⟨l, hl, fun z => ?_⟩
    rw [hmem z]
    simp
  induction tiles with
  | nil =>
    intro acc
    refine ⟨acc, rfl, ?_⟩
    simp
  | cons t ts ih =>
    intro acc
    have hb : inTileBounds g.xTiles g.yTiles t.1 t.2 := htl t (List.mem_cons_self _ _)
    have hidx : (tileIndex g.xTiles t.1 t.2).toNat < g.grid.length := by
      rw [hlen]
      exact tileIndex_toNat_lt hb
    have hsome : g.gridAt (tileIndex g.xTiles t.1 t.2) = some (bucketAt g t.1 t.2) := by
      unfold SpatialGrid.gridAt
      rw [if_pos (tileIndex_nonneg hb), List.getElem?_eq_getElem hidx]
      unfold bucketAt
      rw [List.getElem?_eq_getElem hidx]
      rfl
    have htl' : ∀ q ∈ ts, inTileBounds g.xTiles g.yTiles q.1 q.2 :=
      fun q hq => htl q (List.mem_cons_of_mem _ hq)
    obtain ⟨l, hl, hmem⟩ := ih htl' (addBucket acc (bucketAt g t.1 t.2))
    refine ⟨l, ?_, ?_⟩
    · rw [List.foldlM_cons, hsome]
      exact hl
    · intro z
      rw [hmem z]
      constructor
      · rintro (hz | ⟨q, hq, hqm⟩)
        · rcases mem_addBucket.mp hz with hz1 | hz2
          · exact Or.inl hz1
          · exact Or.inr ⟨t, List.mem_cons_self _ _, hz2⟩
        · exact Or.inr ⟨q, List.mem_cons_of_mem _ hq, hqm⟩
      · rintro (hz | ⟨q, hq, hqm⟩)
        · exact Or.inl (mem_addBucket.mpr (Or.inl hz))
        · rcases List.mem_cons.mp hq with rfl | hq'
          · exact Or.inl (mem_addBucket.mpr (Or.inr hqm))
          · exact Or.inr ⟨q, hq', hqm⟩

theorem line_nodup_of_some {g : SpatialGrid} {fromX fromY toX toY width : ℚ}
    {l : List SpatialGridObject}
    (hl : g.getObjectsIntersectingLine fromX fromY toX toY width = some l) :
    l.Nodup := by
  rw [getObjectsIntersectingLine_eq] at hl
  obtain ⟨c, hc, rfl⟩ := Option.map_eq_some'.mp hl
  exact ((collectBuckets_sound _ [] c hc).2 List.nodup_nil).filter _

theorem line_sound {g : SpatialGrid} {fromX fromY toX toY width : ℚ}
    {l : List SpatialGridObject}
    (hl : g.getObjectsIntersectingLine fromX fromY toX toY width = some l)
    {z : SpatialGridObject} (hz : z ∈ l) :
    (∃ (i : ℕ) (b : List SpatialGridObject), g.grid[i]? = some b ∧ z ∈ b) ∧
      linePasses fromX fromY toX toY width z := by
  rw [getObjectsIntersectingLine_eq] at hl
  obtain ⟨c, hc, rfl⟩ := Option.map_eq_some'.mp hl
  obtain ⟨hzc, hzp⟩ := List.mem_filter.mp hz
  rcases (collectBuckets_sound _ [] c hc).1 z hzc with h0 | h
  · simp at h0
  · exact ⟨h, of_decide_eq_true hzp⟩

/-! ### Queries on a grid with no tiles -/

theorem not_inTileBounds_of_nonpos {xT yT tx ty : ℤ} (h : xT ≤ 0 ∨ yT ≤ 0) :
    ¬ inTileBounds xT yT tx ty := by
  rintro ⟨h1, h2, h3, h4⟩
  rcases h with h | h <;> omega

theorem getNeighbors_empty_of_noTiles {g : SpatialGrid}
    (h : g.xTiles ≤ 0 ∨ g.yTiles ≤ 0) (x y : ℚ) (n : ℤ) :
    g.getNeighbors x y n = some [] := by
  rw [getNeighbors_eq]
  generalize offsetPairs n = ps
  induction ps with
  | nil => rfl
  | cons p ps ih =>
    rw [List.foldlM_cons]
    have hstep : neighborStep g ⌊x / g.tileSize⌋ ⌊y / g.tileSize⌋ [] p = some [] := by
      unfold neighborStep
      rw [if_neg (not_inTileBounds_of_nonpos h)]
    rw [hstep]
    exact ih

theorem getObjectsIntersectingCircle_empty_of_noTiles {g : SpatialGrid}
    (h : g.xTiles ≤ 0 ∨ g.yTiles ≤ 0) (x y radius : ℚ) :
    g.getObjectsIntersectingCircle x y radius = some [] := by
  rw [getObjectsIntersectingCircle_eq, getNeighbors_empty_of_noTiles h]
  rfl

theorem getObjectsIntersectingRect_empty_of_noTiles {g : SpatialGrid}
    (h : g.xTiles ≤ 0 ∨ g.yTiles ≤ 0) (x y width height : ℚ) :
    g.getObjectsIntersectingRect x y width height = some [] := by
  rw [getObjectsIntersectingRect_eq]
  generalize ((intRange ⌊x / g.tileSize⌋ ⌊(x + width) / g.tileSize⌋).flatMap
    (fun tX => (intRange ⌊y / g.tileSize⌋ ⌊(y + height) / g.tileSize⌋).map
      (fun tY => (tX, tY)))) = ps
  induction ps with
  | nil => rfl
  | cons p ps ih =>
    rw [List.foldlM_cons]
    have hstep : rectStep g x y width height [] p = some [] := by
      unfold rectStep
      rw [if_neg (not_inTileBounds_of_nonpos h)]
    rw [hstep]
    exact ih

theorem bresenhamLoop_of_noTiles {xT yT x1 y1 dx dy sx sy : ℤ}
    (h : xT ≤ 0 ∨ yT ≤ 0) :
    ∀ (fuel : ℕ) (x0 y0 err : ℤ) (acc : List (ℤ × ℤ)),
      bresenhamLoop xT yT x1 y1 dx dy sx sy fuel x0 y0 err acc = acc := by
  intro fuel
  induction fuel with
  | zero => intro x0 y0 err acc; rfl
  | succ fuel ih =>
    intro x0 y0 err acc
    unfold bresenhamLoop
    rw [if_neg (not_inTileBounds_of_nonpos h)]
    split
    · rfl
    · exact ih _ _ _ _

theorem getObjectsIntersectingLine_empty_of_noTiles {g : SpatialGrid}
    (h : g.xTiles ≤ 0 ∨ g.yTiles ≤ 0) (fromX fromY toX toY width : ℚ) :
    g.getObjectsIntersectingLine fromX fromY toX toY width = some [] := by
  rw [getObjectsIntersectingLine_eq, bresenhamLoop_of_noTiles h]
  rfl

/-! ### Floor/ceil arithmetic for candidate-tile coverage -/

theorem floor_div_add_le (a r ts : ℚ) (hts : 0 < ts) :
    ⌊(a + r) / ts⌋ ≤ ⌊a / ts⌋ + ⌈r / ts⌉ := by
  rw [add_div]
  have h1 : a / ts + r / ts ≤ a / ts + (⌈r / ts⌉ : ℚ) := by
    have := Int.le_ceil (r / ts)
    linarith
  calc ⌊a / ts + r / ts⌋ ≤ ⌊a / ts + (⌈r / ts⌉ : ℚ)⌋ := Int.floor_le_floor h1
    _ = ⌊a / ts⌋ + ⌈r / ts⌉ := Int.floor_add_int _ _

theorem sub_ceil_le_floor_div (a r ts : ℚ) (hts : 0 < ts) :
    ⌊a / ts⌋ - ⌈r / ts⌉ ≤ ⌊(a - r) / ts⌋ := by
  rw [sub_div]
  have h1 : a / ts - (⌈r / ts⌉ : ℚ) ≤ a / ts - r / ts := by
    have := Int.le_ceil (r / ts)
    linarith
  calc ⌊a / ts⌋ - ⌈r / ts⌉ = ⌊a / ts - (⌈r / ts⌉ : ℚ)⌋ := (Int.floor_sub_int _ _).symm
    _ ≤ ⌊a / ts - r / ts⌋ := Int.floor_le_floor h1

/-! ### Monotonicity helpers for the line query -/

theorem linePasses_mono {fromX fromY toX toY w1 w2 : ℚ} {z : SpatialGridObject}
    (hR : 0 ≤ z.radius.getD 0) (hw1 : 0 ≤ w1) (hw12 : w1 ≤ w2)
    (hp : linePasses fromX fromY toX toY w1 z) :
    linePasses fromX fromY toX toY w2 z := by
  unfold linePasses at hp ⊢
  have h0 : 0 ≤ z.radius.getD 0 + w1 / 2 := by linarith
  have h12 : z.radius.getD 0 + w1 / 2 ≤ z.radius.getD 0 + w2 / 2 := by linarith
  exact le_trans hp (mul_self_le_mul_self h0 h12)

theorem expandTiles_mono {xT yT k1 k2 : ℤ} {tiles : List (ℤ × ℤ)} {q : ℤ × ℤ}
    (hk : k1 ≤ k2) (hq : q ∈ expandTiles xT yT k1 tiles) :
    q ∈ expandTiles xT yT k2 tiles := by
  obtain ⟨t, ht, oX, oY, h1, h2, h3, h4, hb, rfl⟩ := mem_expandTiles.mp hq
  exact mem_expandTiles.mpr ⟨t, ht, oX, oY, by omega, by omega, by omega, by omega, hb, rfl⟩

/-! ### The membership round trip through an object's center tile -/

/-- C5 (amended): for an object that is live at `update` time, whose resolved
extent tile range contains its own center tile, and whose center tile lies
within the in-bounds tile range, `getNeighbors(obj.x, obj.y, 0)` after
`update()` returns a list containing the object.  (As stated — for every live
object — the claim fails: see `neighbors_roundtrip_cex`.) -/
theorem neighbors_roundtrip_center_tile (g : SpatialGrid) (o : SpatialGridObject)
    (ho : o ∈ g.objects)
    (hsx : o.startX g.tileSize ≤ ⌊o.x / g.tileSize⌋)
    (hex : ⌊o.x / g.tileSize⌋ ≤ o.endX g.tileSize)
    (hsy : o.startY g.tileSize ≤ ⌊o.y / g.tileSize⌋)
    (hey : ⌊o.y / g.tileSize⌋ ≤ o.endY g.tileSize)
    (hb : inTileBounds g.xTiles g.yTiles ⌊o.x / g.tileSize⌋ ⌊o.y / g.tileSize⌋) :
    ∃ l, (g.update).getNeighbors o.x o.y 0 = some l ∧ o ∈ l := by
  have hlen : (g.update).grid.length = ((g.update).xTiles * (g.update).yTiles).toNat :=
    update_grid_length g
  obtain ⟨l, hl, hnd, hmem⟩ := getNeighbors_some (g := g.update) o.x o.y 0 hlen
  refine ⟨l, hl, ?_⟩
  rw [hmem o]
  refine ⟨0, 0, by omega, by omega, by omega, by omega, ?_, ?_⟩
  · show inTileBounds g.xTiles g.yTiles (⌊o.x / g.tileSize⌋ + 0) (⌊o.y / g.tileSize⌋ + 0)
    simpa using hb
  · show o ∈ bucketAt (g.update) (⌊o.x / g.tileSize⌋ + 0) (⌊o.y / g.tileSize⌋ + 0)
    have hb' : inTileBounds g.xTiles g.yTiles
        (⌊o.x / g.tileSize⌋ + 0) (⌊o.y / g.tileSize⌋ + 0) := by simpa using hb
    have hbucket := update_bucket g hb'
    unfold bucketAt
    rw [update_xTiles, hbucket]
    show o ∈ g.objects.filter _
    refine List.mem_filter.mpr ⟨ho, decide_eq_true ?_⟩
    show covers g.tileSize o (⌊o.x / g.tileSize⌋ + 0) (⌊o.y / g.tileSize⌋ + 0)
    refine ⟨by omega, by omega, by omega, by omega⟩

/-! ### Exactness of the circle query for radius-extent objects inside the
tiled region -/

theorem circle_exact_aux (g : SpatialGrid) (qx qy r : ℚ)
    (hts : 0 < g.tileSize) (hr : 0 ≤ r)
    (hobj : ∀ o ∈ g.objects,
      o.left = none ∧ o.right = none ∧ o.top = none ∧ o.bottom = none ∧
      0 ≤ o.radius.getD 0 ∧
      0 ≤ o.x - o.radius.getD 0 ∧ o.x + o.radius.getD 0 < (g.xTiles : ℚ) * g.tileSize ∧
      0 ≤ o.y - o.radius.getD 0 ∧ o.y + o.radius.getD 0 < (g.yTiles : ℚ) * g.tileSize) :
    ∃ l, (g.update).getObjectsIntersectingCircle qx qy r = some l ∧
      ∀ z, z ∈ l ↔ z ∈ g.objects ∧ circlePasses qx qy r z := by
  have hlen : (g.update).grid.length = ((g.update).xTiles * (g.update).yTiles).toNat :=
    update_grid_length g
  obtain ⟨l, hl, hmem⟩ := circle_some (g := g.update) qx qy r hlen
  refine ⟨l, hl, fun z => ?_⟩
  rw [hmem z]
  simp only [update_tileSize, update_xTiles, update_yTiles]
  constructor
  · rintro ⟨hp, oX, oY, h1, h2, h3, h4, hbnd, hzb⟩
    refine ⟨?_, hp⟩
    unfold bucketAt at hzb
    rw [update_xTiles] at hzb
    rcases he : (g.update).grid[(tileIndex g.xTiles
        (⌊qx / g.tileSize⌋ + oX) (⌊qy / g.tileSize⌋ + oY)).toNat]?
      with _ | b
    · rw [he] at hzb
      simp at hzb
    · rw [he] at hzb
      exact update_bucket_mem_objects he hzb
  · rintro ⟨hz, hp⟩
    refine ⟨hp, ?_⟩
    obtain ⟨hle, hri, hto, hbo, hR0, hx0, hx1, hy0, hy1⟩ := hobj z hz
    have hsxdef : z.startX g.tileSize = ⌊(z.x - z.radius.getD 0) / g.tileSize⌋ := by
      unfold SpatialGridObject.startX
      rw [hle]
      rfl
    have hexdef : z.endX g.tileSize = ⌊(z.x + z.radius.getD 0) / g.tileSize⌋ := by
      unfold SpatialGridObject.endX
      rw [hri]
      rfl
    have hsydef : z.startY g.tileSize = ⌊(z.y - z.radius.getD 0) / g.tileSize⌋ := by
      unfold SpatialGridObject.startY
      rw [hto]
      rfl
    have heydef : z.endY g.tileSize = ⌊(z.y + z.radius.getD 0) / g.tileSize⌋ := by
      unfold SpatialGridObject.endY
      rw [hbo]
      rfl
    have hRr : 0 ≤ z.radius.getD 0 + r := by linarith
    have hp' : (z.x - qx) * (z.x - qx) + (z.y - qy) * (z.y - qy) ≤
        (z.radius.getD 0 + r) * (z.radius.getD 0 + r) := hp
    have hdx1 : z.x - qx ≤ z.radius.getD 0 + r := by
      nlinarith [mul_self_nonneg (z.y - qy), mul_self_nonneg (z.x - qx - (z.radius.getD 0 + r))]
    have hdx2 : -(z.radius.getD 0 + r) ≤ z.x - qx := by
      nlinarith [mul_self_nonneg (z.y - qy), mul_self_nonneg (z.x - qx + (z.radius.getD 0 + r))]
    have hdy1 : z.y - qy ≤ z.radius.getD 0 + r := by
      nlinarith [mul_self_nonneg (z.x - qx), mul_self_nonneg (z.y - qy - (z.radius.getD 0 + r))]
    have hdy2 : -(z.radius.getD 0 + r) ≤ z.y - qy := by
      nlinarith [mul_self_nonneg (z.x - qx), mul_self_nonneg (z.y - qy + (z.radius.getD 0 + r))]
    have hk0 : 0 ≤ ⌈r / g.tileSize⌉ := Int.ceil_nonneg (div_nonneg hr hts.le)
    have hsx_le : z.startX g.tileSize ≤ ⌊qx / g.tileSize⌋ + ⌈r / g.tileSize⌉ := by
      rw [hsxdef]
      have h5 : z.x - z.radius.getD 0 ≤ qx + r := by linarith
      calc ⌊(z.x - z.radius.getD 0) / g.tileSize⌋ ≤ ⌊(qx + r) / g.tileSize⌋ :=
            Int.floor_le_floor ((div_le_div_right hts).mpr h5)
        _ ≤ ⌊qx / g.tileSize⌋ + ⌈r / g.tileSize⌉ := floor_div_add_le qx r g.tileSize hts
    have hex_ge : ⌊qx / g.tileSize⌋ - ⌈r / g.tileSize⌉ ≤ z.endX g.tileSize := by
      rw [hexdef]
      have h5 : qx - r ≤ z.x + z.radius.getD 0 := by linarith
      calc ⌊qx / g.tileSize⌋ - ⌈r / g.tileSize⌉ ≤ ⌊(qx - r) / g.tileSize⌋ :=
            sub_ceil_le_floor_div qx r g.tileSize hts
        _ ≤ ⌊(z.x + z.radius.getD 0) / g.tileSize⌋ :=
            Int.floor_le_floor ((div_le_div_right hts).mpr h5)
    have hsy_le : z.startY g.tileSize ≤ ⌊qy / g.tileSize⌋ + ⌈r / g.tileSize⌉ := by
      rw [hsydef]
      have h5 : z.y - z.radius.getD 0 ≤ qy + r := by linarith
      calc ⌊(z.y - z.radius.getD 0) / g.tileSize⌋ ≤ ⌊(qy + r) / g.tileSize⌋ :=
            Int.floor_le_floor ((div_le_div_right hts).mpr h5)
        _ ≤ ⌊qy / g.tileSize⌋ + ⌈r / g.tileSize⌉ := floor_div_add_le qy r g.tileSize hts
    have hey_ge : ⌊qy / g.tileSize⌋ - ⌈r / g.tileSize⌉ ≤ z.endY g.tileSize := by
      rw [heydef]
      have h5 : qy - r ≤ z.y + z.radius.getD 0 := by linarith
      calc ⌊qy / g.tileSize⌋ - ⌈r / g.tileSize⌉ ≤ ⌊(qy - r) / g.tileSize⌋ :=
            sub_ceil_le_floor_div qy r g.tileSize hts
        _ ≤ ⌊(z.y + z.radius.getD 0) / g.tileSize⌋ :=
            Int.floor_le_floor ((div_le_div_right hts).mpr h5)
    have hsx0 : 0 ≤ z.startX g.tileSize := by
      rw [hsxdef]
      exact Int.floor_nonneg.mpr (div_nonneg hx0 hts.le)
    have hsy0 : 0 ≤ z.startY g.tileSize := by
      rw [hsydef]
      exact Int.floor_nonneg.mpr (div_nonneg hy0 hts.le)
    have hex_lt : z.endX g.tileSize < g.xTiles := by
      rw [hexdef]
      exact Int.floor_lt.mpr ((div_lt_iff hts).mpr (by linarith))
    have hey_lt : z.endY g.tileSize < g.yTiles := by
      rw [heydef]
      exact Int.floor_lt.mpr ((div_lt_iff hts).mpr (by linarith))
    have hsx_ex : z.startX g.tileSize ≤ z.endX g.tileSize := by
      rw [hsxdef, hexdef]
      exact Int.floor_le_floor ((div_le_div_right hts).mpr (by linarith))
    have hsy_ey : z.startY g.tileSize ≤ z.endY g.tileSize := by
      rw [hsydef, heydef]
      exact Int.floor_le_floor ((div_le_div_right hts).mpr (by linarith))
    have heX1 : z.startX g.tileSize ≤
        max (z.startX g.tileSize) (min ⌊qx / g.tileSize⌋ (z.endX g.tileSize)) :=
      le_max_left _ _
    have heX2 : max (z.startX g.tileSize) (min ⌊qx / g.tileSize⌋ (z.endX g.tileSize)) ≤
        z.endX g.tileSize := max_le hsx_ex (min_le_right _ _)
    have heX3 : ⌊qx / g.tileSize⌋ - ⌈r / g.tileSize⌉ ≤
        max (z.startX g.tileSize) (min ⌊qx / g.tileSize⌋ (z.endX g.tileSize)) :=
      le_trans (le_min (by omega) hex_ge) (le_max_right _ _)
    have heX4 : max (z.startX g.tileSize) (min ⌊qx / g.tileSize⌋ (z.endX g.tileSize)) ≤
        ⌊qx / g.tileSize⌋ + ⌈r / g.tileSize⌉ :=
      max_le hsx_le (le_trans (min_le_left _ _) (by omega))
    have heY1 : z.startY g.tileSize ≤
        max (z.startY g.tileSize) (min ⌊qy / g.tileSize⌋ (z.endY g.tileSize)) :=
      le_max_left _ _
    have heY2 : max (z.startY g.tileSize) (min ⌊qy / g.tileSize⌋ (z.endY g.tileSize)) ≤
        z.endY g.tileSize := max_le hsy_ey (min_le_right _ _)
    have heY3 : ⌊qy / g.tileSize⌋ - ⌈r / g.tileSize⌉ ≤
        max (z.startY g.tileSize) (min ⌊qy / g.tileSize⌋ (z.endY g.tileSize)) :=
      le_trans (le_min (by omega) hey_ge) (le_max_right _ _)
    have heY4 : max (z.startY g.tileSize) (min ⌊qy / g.tileSize⌋ (z.endY g.tileSize)) ≤
        ⌊qy / g.tileSize⌋ + ⌈r / g.tileSize⌉ :=
      max_le hsy_le (le_trans (min_le_left _ _) (by omega))
    refine ⟨max (z.startX g.tileSize) (min ⌊qx / g.tileSize⌋ (z.endX g.tileSize)) -
        ⌊qx / g.tileSize⌋,
      max (z.startY g.tileSize) (min ⌊qy / g.tileSize⌋ (z.endY g.tileSize)) -
        ⌊qy / g.tileSize⌋, by omega, by omega, by omega, by omega, ?_, ?_⟩
    · show inTileBounds g.xTiles g.yTiles
        (⌊qx / g.tileSize⌋ +
          (max (z.startX g.tileSize) (min ⌊qx / g.tileSize⌋ (z.endX g.tileSize)) -
            ⌊qx / g.tileSize⌋))
        (⌊qy / g.tileSize⌋ +
          (max (z.startY g.tileSize) (min ⌊qy / g.tileSize⌋ (z.endY g.tileSize)) -
            ⌊qy / g.tileSize⌋))
      refine ⟨by omega, by omega, by omega, by omega⟩
    · show z ∈ bucketAt (g.update)
        (⌊qx / g.tileSize⌋ +
          (max (z.startX g.tileSize) (min ⌊qx / g.tileSize⌋ (z.endX g.tileSize)) -
            ⌊qx / g.tileSize⌋))
        (⌊qy / g.tileSize⌋ +
          (max (z.startY g.tileSize) (min ⌊qy / g.tileSize⌋ (z.endY g.tileSize)) -
            ⌊qy / g.tileSize⌋))
      have hbnd : inTileBounds g.xTiles g.yTiles
          (⌊qx / g.tileSize⌋ +
            (max (z.startX g.tileSize) (min ⌊qx / g.tileSize⌋ (z.endX g.tileSize)) -
              ⌊qx / g.tileSize⌋))
          (⌊qy / g.tileSize⌋ +
            (max (z.startY g.tileSize) (min ⌊qy / g.tileSize⌋ (z.endY g.tileSize)) -
              ⌊qy / g.tileSize⌋)) :=
        ⟨by omega, by omega, by omega, by omega⟩
      unfold bucketAt
      rw [update_xTiles, update_bucket g hbnd]
      refine List.mem_filter.mpr ⟨hz, decide_eq_true ?_⟩
      exact ⟨by omega, by omega, by omega, by omega⟩

/-! ### Width monotonicity for the line query -/

theorem line_phase_mono (g : SpatialGrid) (fromX fromY toX toY w1 w2 : ℚ)
    (hrad : ∀ o ∈ g.objects, 0 ≤ o.radius.getD 0)
    (hw1 : 0 ≤ w1) (hw12 : w1 ≤ w2) (hts : 0 < g.tileSize)
    (L : List (ℤ × ℤ)) (c1 c2 : List SpatialGridObject)
    (hc1 : collectBuckets (g.update)
      (expandTiles (g.update).xTiles (g.update).yTiles
        ⌈w1 / (2 * (g.update).tileSize)⌉ L) = some c1)
    (hc2 : collectBuckets (g.update)
      (expandTiles (g.update).xTiles (g.update).yTiles
        ⌈w2 / (2 * (g.update).tileSize)⌉ L) = some c2) :
    ∀ z ∈ c1.filter (fun obj => decide (linePasses fromX fromY toX toY w1 obj)),
      z ∈ c2.filter (fun obj => decide (linePasses fromX fromY toX toY w2 obj)) := by
  intro z hz
  obtain ⟨hzc1, hzp1⟩ := List.mem_filter.mp hz
  have hlen := update_grid_length g
  obtain ⟨c1', hc1', hm1⟩ := collectBuckets_complete hlen
    (expandTiles (g.update).xTiles (g.update).yTiles ⌈w1 / (2 * (g.update).tileSize)⌉ L)
    (fun t ht => expandTiles_inBounds ht)
  obtain rfl : c1 = c1' := Option.some.inj (hc1.symm.trans hc1')
  obtain ⟨t, htL, hzt⟩ := (hm1 z).mp hzc1
  have h2ts : (0 : ℚ) < 2 * g.tileSize := by
    have h2 : (0 : ℚ) < 2 := by norm_num
    exact mul_pos h2 hts
  have hk : ⌈w1 / (2 * (g.update).tileSize)⌉ ≤ ⌈w2 / (2 * (g.update).tileSize)⌉ :=
    Int.ceil_le_ceil ((div_le_div_iff_of_pos_right h2ts).mpr hw12)
  have ht2 := expandTiles_mono hk htL
  obtain ⟨c2', hc2', hm2⟩ := collectBuckets_complete hlen
    (expandTiles (g.update).xTiles (g.update).yTiles ⌈w2 / (2 * (g.update).tileSize)⌉ L)
    (fun t ht => expandTiles_inBounds ht)
  obtain rfl : c2 = c2' := Option.some.inj (hc2.symm.trans hc2')
  have hzc2 : z ∈ c2 := (hm2 z).mpr ⟨t, ht2, hzt⟩
  have hzobj : z ∈ g.objects := by
    have hbnd := expandTiles_inBounds htL
    have hidx : (tileIndex (g.update).xTiles t.1 t.2).toNat < (g.update).grid.length := by
      rw [hlen]
      exact tileIndex_toNat_lt hbnd
    unfold bucketAt at hzt
    rw [List.getElem?_eq_getElem hidx] at hzt
    exact update_bucket_mem_objects (List.getElem?_eq_getElem hidx) (by simpa using hzt)
  have hp2 := linePasses_mono (hrad z hzobj) hw1 hw12 (of_decide_eq_true hzp1)
  exact List.mem_filter.mpr ⟨hzc2, decide_eq_true hp2⟩

/-! ### Concrete fixtures for witnesses and counterexamples -/

def obj25 : SpatialGridObject := { id := 0, x := 25, y := 25, radius := some 5 }

def obj95 : SpatialGridObject := { id := 1, x := 95, y := 5 }

def objSpan : SpatialGridObject :=
  { id := 2, x := 5, y := 5, left := some 0, right := some 15,
    top := some 0, bottom := some 5 }

def objA : SpatialGridObject := { id := 3, x := 5, y := 5 }

def objW : SpatialGridObject := { id := 4, x := 15, y := 15 }

def obj45 : SpatialGridObject := { id := 5, x := 45, y := 45 }

def gridA : SpatialGrid := ((SpatialGrid.create 20 20 10).add [objA]).update

def grid25 : SpatialGrid := (SpatialGrid.create 100 100 10).add [obj25]

def grid95a : SpatialGrid := (SpatialGrid.create 100 100 30).add [obj95]

def grid95b : SpatialGrid := (SpatialGrid.create 100 100 10).add [obj95]

def grid45 : SpatialGrid := (SpatialGrid.create 100 100 10).add [obj45]

/-! ### Claim theorems -/

/-- C1 (counterexample): `getObjectsIntersectingRect` does not deduplicate:
an object registered in the two visited tiles of its extent is returned
twice by a rectangle query covering the whole grid. -/
theorem rect_query_duplicates_cex :
    (((SpatialGrid.create 20 20 10).add [objSpan]).update).getObjectsIntersectingRect
        0 0 20 20 = some [objSpan, objSpan] ∧
      ¬ ([objSpan, objSpan] : List SpatialGridObject).Nodup :=
  ⟨by decide, by decide⟩

/-- C1 (amended): `getNeighbors`, `getObjectsIntersectingCircle` and
`getObjectsIntersectingLine` deduplicate candidates by identity, so whenever
they return a result, it contains each object reference at most once.
`getObjectsIntersectingRect` does not (see `rect_query_duplicates_cex`). -/
theorem neighbors_circle_line_nodup (g : SpatialGrid) :
    (∀ (x y : ℚ) (n : ℤ) (l : List SpatialGridObject),
      g.getNeighbors x y n = some l → l.Nodup) ∧
    (∀ (x y radius : ℚ) (l : List SpatialGridObject),
      g.getObjectsIntersectingCircle x y radius = some l → l.Nodup) ∧
    (∀ (fromX fromY toX toY width : ℚ) (l : List SpatialGridObject),
      g.getObjectsIntersectingLine fromX fromY toX toY width = some l → l.Nodup) :=
  ⟨fun _ _ _ _ h => getNeighbors_nodup_of_some h,
    fun _ _ _ _ h => circle_nodup_of_some h,
    fun _ _ _ _ _ _ h => line_nodup_of_some h⟩

theorem neighbors_circle_line_nodup_witness :
    gridA.getNeighbors 5 5 1 = some [objA] ∧ ([objA] : List SpatialGridObject).Nodup :=
  ⟨by decide, (neighbors_circle_line_nodup gridA).1 5 5 1 [objA] (by decide)⟩

/-- C2: queries issued before the first `update()` are not well-defined empty
results: on a freshly constructed grid with at least one in-bounds tile, every
query dereferences a missing bucket (`undefined` in the source, modelled as
`none`), i.e. the original code throws a `TypeError` instead of returning an
empty sequence. -/
theorem query_before_update_throws :
    (SpatialGrid.create 10 10 10).getNeighbors 5 5 0 = none ∧
    ((SpatialGrid.create 10 10 10).add [objA]).getNeighbors 5 5 0 = none ∧
    (SpatialGrid.create 10 10 10).getObjectsIntersectingCircle 5 5 0 = none ∧
    (SpatialGrid.create 10 10 10).getObjectsIntersectingRect 0 0 5 5 = none ∧
    (SpatialGrid.create 10 10 10).getObjectsIntersectingLine 0 0 5 5 0 = none :=
  ⟨by decide, by decide, by decide, by decide, by decide⟩

/-- C3 (counterexample): the circle query misses an added object that
satisfies the distance inequality, and the result set depends on the choice
of `tileSize`: the object at `(95, 5)` in a `100×100` grid is returned for
`tileSize = 10` but not for `tileSize = 30` (it lies in the floor-truncated
margin and registers into no bucket). -/
theorem circle_tileSize_dependent_cex :
    (grid95a.update).getObjectsIntersectingCircle 95 5 0 = some [] ∧
    (grid95b.update).getObjectsIntersectingCircle 95 5 0 = some [obj95] ∧
    obj95 ∈ grid95a.objects ∧ circlePasses 95 5 0 obj95 ∧
    grid95a.objects = grid95b.objects :=
  ⟨by decide, by decide, by decide, by decide, by decide⟩

/-- C3 (amended): after `update()`, `getObjectsIntersectingCircle(x, y, r)`
with `r ≥ 0` returns exactly the added objects satisfying
`(objX-x)² + (objY-y)² ≤ (objRadius + r)²`, provided every object lacks
explicit edges and its radius extent lies within the tiled region
`[0, xTiles·tileSize) × [0, yTiles·tileSize)`; under the same proviso the
result set does not depend on the tile size.  Without the proviso both parts
fail (see `circle_tileSize_dependent_cex`). -/
theorem circle_exact_in_tiled_region (g : SpatialGrid) (qx qy r : ℚ)
    (hts : 0 < g.tileSize) (hr : 0 ≤ r)
    (hobj : ∀ o ∈ g.objects,
      o.left = none ∧ o.right = none ∧ o.top = none ∧ o.bottom = none ∧
      0 ≤ o.radius.getD 0 ∧
      0 ≤ o.x - o.radius.getD 0 ∧ o.x + o.radius.getD 0 < (g.xTiles : ℚ) * g.tileSize ∧
      0 ≤ o.y - o.radius.getD 0 ∧ o.y + o.radius.getD 0 < (g.yTiles : ℚ) * g.tileSize) :
    (∃ l, (g.update).getObjectsIntersectingCircle qx qy r = some l ∧
      ∀ z, z ∈ l ↔ z ∈ g.objects ∧ circlePasses qx qy r z) ∧
    (∀ g₂ : SpatialGrid, g₂.objects = g.objects → 0 < g₂.tileSize →
      (∀ o ∈ g₂.objects,
        o.left = none ∧ o.right = none ∧ o.top = none ∧ o.bottom = none ∧
        0 ≤ o.radius.getD 0 ∧
        0 ≤ o.x - o.radius.getD 0 ∧
          o.x + o.radius.getD 0 < (g₂.xTiles : ℚ) * g₂.tileSize ∧
        0 ≤ o.y - o.radius.getD 0 ∧
          o.y + o.radius.getD 0 < (g₂.yTiles : ℚ) * g₂.tileSize) →
      ∀ l l₂, (g.update).getObjectsIntersectingCircle qx qy r = some l →
        (g₂.update).getObjectsIntersectingCircle qx qy r = some l₂ →
        ∀ z, z ∈ l ↔ z ∈ l₂) := by
  refine ⟨circle_exact_aux g qx qy r hts hr hobj, ?_⟩
  intro g₂ hobjs hts₂ hobj₂ l l₂ hl hl₂ z
  obtain ⟨l', hl', hch⟩ := circle_exact_aux g qx qy r hts hr hobj
  obtain ⟨l₂', hl₂', hch₂⟩ := circle_exact_aux g₂ qx qy r hts₂ hr hobj₂
  obtain rfl : l = l' := Option.some.inj (hl.symm.trans hl')
  obtain rfl : l₂ = l₂' := Option.some.inj (hl₂.symm.trans hl₂')
  rw [hch z, hch₂ z, hobjs]

theorem circle_exact_in_tiled_region_witness :
    0 < grid95b.tileSize ∧ (0 : ℚ) ≤ 0 ∧
    ∃ l, (grid95b.update).getObjectsIntersectingCircle 95 5 0 = some l ∧
      ∀ z, z ∈ l ↔ z ∈ grid95b.objects ∧ circlePasses 95 5 0 z :=
  ⟨by decide, le_refl 0,
    (circle_exact_in_tiled_region grid95b 95 5 0 (by decide) (by norm_num) (by decide)).1⟩

/-- C4: after `update()`, the bucket of every in-bounds tile `(tx, ty)`
contains exactly the live objects whose resolved extent rectangle (explicit
edge where present, else center ± radius with radius defaulting to 0) spans
a floor-divided tile range containing `(tx, ty)`; the table has exactly
`xTiles * yTiles` buckets (registrations clipped to the in-bounds range), and
an object whose extent covers no in-bounds tile lies in no bucket. -/
theorem update_bucket_exact (g : SpatialGrid) (tx ty : ℤ)
    (h : inTileBounds g.xTiles g.yTiles tx ty) :
    (g.update).grid.length = (g.xTiles * g.yTiles).toNat ∧
    (g.update).gridAt (tileIndex g.xTiles tx ty) =
      some (g.objects.filter (fun o => decide (covers g.tileSize o tx ty))) ∧
    ∀ o : SpatialGridObject,
      (∀ tx' ty', inTileBounds g.xTiles g.yTiles tx' ty' → ¬ covers g.tileSize o tx' ty') →
      ∀ b, (g.update).gridAt (tileIndex g.xTiles tx ty) = some b → o ∉ b := by
  refine ⟨update_grid_length g, update_gridAt g h, ?_⟩
  intro o hno b hb hob
  rw [update_gridAt g h] at hb
  obtain rfl : _ = b := Option.some.inj hb
  obtain ⟨-, hp⟩ := List.mem_filter.mp hob
  exact hno tx ty h (of_decide_eq_true hp)

theorem update_bucket_exact_witness :
    inTileBounds grid25.xTiles grid25.yTiles 2 2 ∧
    (grid25.update).gridAt (tileIndex grid25.xTiles 2 2) =
      some (grid25.objects.filter (fun o => decide (covers grid25.tileSize o 2 2))) :=
  ⟨by decide, (update_bucket_exact grid25 2 2 (by decide)).2.1⟩

/-- C5 (counterexample): the object at `(95, 5)` in a `100×100` grid with
`tileSize = 30` is added and live at `update()` time, yet
`getNeighbors(95, 5, 0)` returns the empty list: its center tile `(3, 0)`
lies outside the `3×3` in-bounds tile range. -/
theorem neighbors_roundtrip_cex :
    obj95 ∈ grid95a.objects ∧
    (grid95a.update).getNeighbors obj95.x obj95.y 0 = some [] :=
  ⟨by decide, by decide⟩

theorem neighbors_roundtrip_center_tile_witness :
    obj25 ∈ grid25.objects ∧
    ∃ l, (grid25.update).getNeighbors obj25.x obj25.y 0 = some l ∧ obj25 ∈ l :=
  ⟨by decide,
    neighbors_roundtrip_center_tile grid25 obj25 (by decide) (by decide) (by decide)
      (by decide) (by decide) (by decide)⟩

/-- C6: for an updated store with non-negative object radii and a segment with
`from ≠ to`: the width-0 line query returns only objects whose center lies
within their own radius of the segment under the clamped closest-point
projection, and for `0 ≤ w1 ≤ w2` every object returned at width `w1` is also
returned at width `w2` (monotonicity in width). -/
theorem line_zero_width_sound_and_monotone (g : SpatialGrid)
    (fromX fromY toX toY : ℚ) (hne : ¬(fromX = toX ∧ fromY = toY))
    (hrad : ∀ o ∈ g.objects, 0 ≤ o.radius.getD 0)
    (w1 w2 : ℚ) (hw1 : 0 ≤ w1) (hw12 : w1 ≤ w2) (hts : 0 < g.tileSize) :
    (∀ l, (g.update).getObjectsIntersectingLine fromX fromY toX toY 0 = some l →
      ∀ z ∈ l, linePasses fromX fromY toX toY 0 z) ∧
    (∀ l1 l2, (g.update).getObjectsIntersectingLine fromX fromY toX toY w1 = some l1 →
      (g.update).getObjectsIntersectingLine fromX fromY toX toY w2 = some l2 →
      ∀ z ∈ l1, z ∈ l2) := by
  constructor
  · intro l hl z hz
    exact (line_sound hl hz).2
  · intro l1 l2 h1 h2 z hz
    rw [getObjectsIntersectingLine_eq] at h1 h2
    obtain ⟨c1, hc1, rfl⟩ := Option.map_eq_some'.mp h1
    obtain ⟨c2, hc2, rfl⟩ := Option.map_eq_some'.mp h2
    exact line_phase_mono g fromX fromY toX toY w1 w2 hrad hw1 hw12 hts _ c1 c2 hc1 hc2 z hz

theorem line_zero_width_sound_and_monotone_witness :
    (grid45.update).getObjectsIntersectingLine 0 0 90 90 0 = some [obj45] ∧
    linePasses 0 0 90 90 0 obj45 :=
  ⟨by decide,
    (line_zero_width_sound_and_monotone grid45 0 0 90 90 (by decide) (by decide) 0 2
        (by norm_num) (by norm_num) (by decide)).1 [obj45] (by decide) obj45
      (List.mem_singleton.mpr rfl)⟩

/-- C7: `xTiles` and `yTiles` are the floor-divided tile counts; when
`tileSize` exceeds the corresponding (non-negative) dimension the count is 0,
and a grid with a zero tile count answers every query with the empty list. -/
theorem tile_counts_and_empty_queries (g : SpatialGrid) :
    g.xTiles = ⌊g.width / g.tileSize⌋ ∧ g.yTiles = ⌊g.height / g.tileSize⌋ ∧
    (0 ≤ g.width → g.width < g.tileSize → g.xTiles = 0) ∧
    (0 ≤ g.height → g.height < g.tileSize → g.yTiles = 0) ∧
    (g.xTiles = 0 ∨ g.yTiles = 0 →
      (∀ (x y : ℚ) (n : ℤ), g.getNeighbors x y n = some []) ∧
      (∀ x y radius : ℚ, g.getObjectsIntersectingCircle x y radius = some []) ∧
      (∀ x y width height : ℚ, g.getObjectsIntersectingRect x y width height = some []) ∧
      (∀ fromX fromY toX toY width : ℚ,
        g.getObjectsIntersectingLine fromX fromY toX toY width = some [])) := by
  refine ⟨rfl, rfl, ?_, ?_, ?_⟩
  · intro h0 h1
    have hts : 0 < g.tileSize := lt_of_le_of_lt h0 h1
    unfold SpatialGrid.xTiles
    rw [Int.floor_eq_zero_iff]
    exact Set.mem_Ico.mpr ⟨div_nonneg h0 hts.le, (div_lt_one hts).mpr h1⟩
  · intro h0 h1
    have hts : 0 < g.tileSize := lt_of_le_of_lt h0 h1
    unfold SpatialGrid.yTiles
    rw [Int.floor_eq_zero_iff]
    exact Set.mem_Ico.mpr ⟨div_nonneg h0 hts.le, (div_lt_one hts).mpr h1⟩
  · intro h
    have h' : g.xTiles ≤ 0 ∨ g.yTiles ≤ 0 := by
      rcases h with h | h
      · exact Or.inl h.le
      · exact Or.inr h.le
    exact ⟨fun x y n => getNeighbors_empty_of_noTiles h' x y n,
      fun x y r => getObjectsIntersectingCircle_empty_of_noTiles h' x y r,
      fun x y w hh => getObjectsIntersectingRect_empty_of_noTiles h' x y w hh,
      fun a b c d w => getObjectsIntersectingLine_empty_of_noTiles h' a b c d w⟩

theorem tile_counts_and_empty_queries_witness :
    (0 : ℚ) ≤ 5 ∧ (5 : ℚ) < 10 ∧ (SpatialGrid.create 5 5 10).xTiles = 0 ∧
    (SpatialGrid.create 5 5 10).getNeighbors 2 2 1 = some [] :=
  ⟨by norm_num, by norm_num,
    (tile_counts_and_empty_queries (SpatialGrid.create 5 5 10)).2.2.1
      (by decide) (by decide),
    ((tile_counts_and_empty_queries (SpatialGrid.create 5 5 10)).2.2.2.2
      (Or.inl (by decide))).1 2 2 1⟩

/-- C9: `update()` is idempotent: a second `update()` leaves the whole store,
and in particular the bucket table, unchanged. -/
theorem update_idempotent (g : SpatialGrid) :
    (g.update).update = g.update ∧ ((g.update).update).grid = (g.update).grid :=
  ⟨rfl, rfl⟩

/-- C10: a negative `neighborTiles` argument makes both offset loops of
`getNeighbors` run zero iterations, so the query returns the empty list for
every store state, before or after `update()`. -/
theorem getNeighbors_negative_returns_empty (g : SpatialGrid) (x y : ℚ) (n : ℤ)
    (hn : n < 0) : g.getNeighbors x y n = some [] := by
  rw [getNeighbors_eq, offsetPairs_neg hn]
  rfl

theorem getNeighbors_negative_returns_empty_witness :
    (-1 : ℤ) < 0 ∧ (SpatialGrid.create 10 10 10).getNeighbors 5 5 (-1) = some [] :=
  ⟨by decide, getNeighbors_negative_returns_empty (SpatialGrid.create 10 10 10) 5 5 (-1)
    (by decide)⟩

/-! ### Frame facts for `add` and `remove` -/

theorem add_getNeighbors (g : SpatialGrid) (os : List SpatialGridObject)
    (x y : ℚ) (n : ℤ) : (g.add os).getNeighbors x y n = g.getNeighbors x y n := rfl

theorem add_getObjectsIntersectingCircle (g : SpatialGrid)
    (os : List SpatialGridObject) (x y radius : ℚ) :
    (g.add os).getObjectsIntersectingCircle x y radius =
      g.getObjectsIntersectingCircle x y radius := rfl

theorem add_getObjectsIntersectingRect (g : SpatialGrid)
    (os : List SpatialGridObject) (x y width height : ℚ) :
    (g.add os).getObjectsIntersectingRect x y width height =
      g.getObjectsIntersectingRect x y width height := rfl

theorem add_getObjectsIntersectingLine (g : SpatialGrid)
    (os : List SpatialGridObject) (fromX fromY toX toY width : ℚ) :
    (g.add os).getObjectsIntersectingLine fromX fromY toX toY width =
      g.getObjectsIntersectingLine fromX fromY toX toY width := rfl

/-- C8: `add` and `remove` leave the bucket table unchanged; after `add`
without an `update`, no query returns an object that is in no stale bucket
(in particular a newly created one); the next `update` registers the appended
objects into the buckets their extents cover; and after `remove` followed by
`update`, no query ever returns a removed object. -/
theorem add_remove_frame (g : SpatialGrid) (os : List SpatialGridObject)
    (o : SpatialGridObject) :
    (g.add os).grid = g.grid ∧ (g.remove os).grid = g.grid ∧
    ((∀ b ∈ g.grid, o ∉ b) →
      (∀ (x y : ℚ) (n : ℤ) l, (g.add os).getNeighbors x y n = some l → o ∉ l) ∧
      (∀ (x y radius : ℚ) l,
        (g.add os).getObjectsIntersectingCircle x y radius = some l → o ∉ l) ∧
      (∀ (x y width height : ℚ) l,
        (g.add os).getObjectsIntersectingRect x y width height = some l → o ∉ l) ∧
      (∀ (fromX fromY toX toY width : ℚ) l,
        (g.add os).getObjectsIntersectingLine fromX fromY toX toY width = some l →
          o ∉ l)) ∧
    (∀ tx ty, inTileBounds g.xTiles g.yTiles tx ty →
      ((g.add os).update).gridAt (tileIndex g.xTiles tx ty) =
        some ((g.objects ++ os).filter (fun z => decide (covers g.tileSize z tx ty)))) ∧
    (o ∈ os →
      (∀ (x y : ℚ) (n : ℤ) l,
        ((g.remove os).update).getNeighbors x y n = some l → o ∉ l) ∧
      (∀ (x y radius : ℚ) l,
        ((g.remove os).update).getObjectsIntersectingCircle x y radius = some l →
          o ∉ l) ∧
      (∀ (x y width height : ℚ) l,
        ((g.remove os).update).getObjectsIntersectingRect x y width height = some l →
          o ∉ l) ∧
      (∀ (fromX fromY toX toY width : ℚ) l,
        ((g.remove os).update).getObjectsIntersectingLine fromX fromY toX toY width =
          some l → o ∉ l)) := by
  have hno_of_mem : o ∈ os → o ∉ (g.remove os).objects := by
    intro ho
    rw [remove_objects]
    intro hmem
    obtain ⟨-, hcontains⟩ := List.mem_filter.mp hmem
    have he : os.contains o = true := List.elem_eq_true_of_mem ho
    rw [he] at hcontains
    simp at hcontains
  refine ⟨rfl, rfl, ?_, ?_, ?_⟩
  · intro hfresh
    refine ⟨?_, ?_, ?_, ?_⟩
    · intro x y n l hl hol
      obtain ⟨i, b, hb, hob⟩ := getNeighbors_mem_bucket hl hol
      exact hfresh b (List.getElem?_mem hb) hob
    · intro x y radius l hl hol
      obtain ⟨i, b, hb, hob⟩ := circle_mem_bucket hl hol
      exact hfresh b (List.getElem?_mem hb) hob
    · intro x y width height l hl hol
      obtain ⟨⟨i, b, hb, hob⟩, -⟩ := rect_sound hl hol
      exact hfresh b (List.getElem?_mem hb) hob
    · intro fromX fromY toX toY width l hl hol
      obtain ⟨⟨i, b, hb, hob⟩, -⟩ := line_sound hl hol
      exact hfresh b (List.getElem?_mem hb) hob
  · intro tx ty htb
    exact update_gridAt (g.add os) htb
  · intro ho
    refine ⟨?_, ?_, ?_, ?_⟩
    · intro x y n l hl hol
      obtain ⟨i, b, hb, hob⟩ := getNeighbors_mem_bucket hl hol
      exact hno_of_mem ho (update_bucket_mem_objects hb hob)
    · intro x y radius l hl hol
      obtain ⟨i, b, hb, hob⟩ := circle_mem_bucket hl hol
      exact hno_of_mem ho (update_bucket_mem_objects hb hob)
    · intro x y width height l hl hol
      obtain ⟨⟨i, b, hb, hob⟩, -⟩ := rect_sound hl hol
      exact hno_of_mem ho (update_bucket_mem_objects hb hob)
    · intro fromX fromY toX toY width l hl hol
      obtain ⟨⟨i, b, hb, hob⟩, -⟩ := line_sound hl hol
      exact hno_of_mem ho (update_bucket_mem_objects hb hob)

theorem add_remove_frame_witness :
    (gridA.add [objW]).grid = gridA.grid ∧
    objW ∉ ([objA] : List SpatialGridObject) ∧
    ((gridA.add [objW]).update).gridAt (tileIndex gridA.xTiles 0 0) =
      some ((gridA.objects ++ [objW]).filter
        (fun z => decide (covers gridA.tileSize z 0 0))) ∧
    objA ∉ ([] : List SpatialGridObject) :=
  ⟨(add_remove_frame gridA [objW] objW).1,
    ((add_remove_frame gridA [objW] objW).2.2.1 (by decide)).1 5 5 1 [objA] (by decide),
    (add_remove_frame gridA [objW] objW).2.2.2.1 0 0 (by decide),
    ((add_remove_frame gridA [objA] objA).2.2.2.2 (by decide)).1 5 5 1 [] (by decide)⟩
